import Mathlib

/-!
# efilinux entry routine (`entry.c`): memory-map fetch and report

A shallow embedding of `print_memory_map` and `efi_main` from `entry.c`.

* The firmware (the boot services reached through `allocate_pool`, `free_pool`,
  `get_memory_map` and `exit`, and the library calls `InitializeLib`,
  `register_table` and `StatusToString`) is a record of functions over an
  arbitrary firmware state, threaded through the calls in program order.  The
  theorems quantify over every such record; what a theorem assumes about the
  answers of the firmware is among its hypotheses.
* Everything the routine does that is visible from outside, every call with its
  arguments and results and every `Print` with its format string and
  arguments, is recorded in program order in a list of `Event`s.  `Print` is an
  output sink: it adds an event and leaves the firmware state alone.  How a
  format directive is rendered is the business of `Print` and is not modelled.
* `UINTN` arithmetic is done modulo `2 ^ bits` and `UINT64` arithmetic modulo
  `2 ^ 64`.  Pointers are as wide as `UINTN`: the cursor of `print_memory_map`
  and the address `buf + size` it is compared with are computed modulo
  `2 ^ bits`.  The record counter is a 32-bit `int`: it is kept as a bit
  pattern modulo `2 ^ 32` and printed as the two's-complement value of that
  pattern.
* The `goto get_map` loop and the `while` loop of `print_memory_map` take a
  bound on the number of passes; a run that uses it up ends as `out_of_fuel`.
-/

namespace Efilinux

/-! ## Build target and constants taken from the headers -/

/-- Build-dependent quantities that `entry.c` takes from `efi.h` and
`efilinux.h`: the width of `UINTN` in bits, `sizeof(EFI_MEMORY_DESCRIPTOR)` and
`PAGE_SIZE`. -/
structure Target where
  bits : Nat
  sizeof_desc : Nat
  PAGE_SIZE : Nat
  deriving DecidableEq, Repr

/-- The x86_64 build: 64-bit `UINTN`, a 40-byte descriptor structure and 4 KiB
pages. -/
def x86_64 : Target := ⟨64, 40, 4096⟩

/-- Status codes are `UINTN` values. -/
abbrev EFI_STATUS := Nat

/-- The status `EFI_SUCCESS` of `efi.h`. -/
def EFI_SUCCESS : EFI_STATUS := 0

/-- The header macro `EFIERR(a)`: the error number with the top bit of `UINTN`
set. -/
def EFIERR (t : Target) (a : Nat) : EFI_STATUS := 2 ^ (t.bits - 1) ||| a

/-- The status `EFI_LOAD_ERROR`, `EFIERR(1)`. -/
def EFI_LOAD_ERROR (t : Target) : EFI_STATUS := EFIERR t 1

/-- The status `EFI_INVALID_PARAMETER`, `EFIERR(2)`. -/
def EFI_INVALID_PARAMETER (t : Target) : EFI_STATUS := EFIERR t 2

/-- The status `EFI_BUFFER_TOO_SMALL`, `EFIERR(5)`. -/
def EFI_BUFFER_TOO_SMALL (t : Target) : EFI_STATUS := EFIERR t 5

/-- The status `EFI_OUT_OF_RESOURCES`, `EFIERR(9)`. -/
def EFI_OUT_OF_RESOURCES (t : Target) : EFI_STATUS := EFIERR t 9

/-- The pool type `EfiLoaderData` of `EFI_MEMORY_TYPE`. -/
def EfiLoaderData : Nat := 2

/-- The macro `ERROR_STRING_LENGTH` of `entry.c`. -/
def ERROR_STRING_LENGTH : Nat := 32

/-! ## Data model -/

/-- The fields of an `EFI_MEMORY_DESCRIPTOR` that `print_memory_map` reads.
The C field `Type` (a `UINT32`) is spelled `Type_`; the other four are
`UINT64`. -/
structure EFI_MEMORY_DESCRIPTOR where
  Type_ : Nat
  PhysicalStart : Nat
  VirtualStart : Nat
  NumberOfPages : Nat
  Attribute : Nat
  deriving DecidableEq, Repr

/-- Memory seen through `EFI_MEMORY_DESCRIPTOR *`: the descriptor found at a
byte address. -/
abbrev Memory := Nat → EFI_MEMORY_DESCRIPTOR

/-- One variadic argument of a `Print` call. -/
inductive PrintArg where
  | int (v : Int)
  | uintn (v : Nat)
  | u64 (v : Nat)
  | str (s : String)
  | wbuf (p : Nat)
  deriving DecidableEq, Repr

/-- One externally visible action of the routine, with the values passed and
the values that came back. -/
inductive Event where
  | InitializeLib (image sys_table : Nat)
  | register_table (sys_table : Nat) (ok : Bool)
  | Print (fmt : String) (args : List PrintArg)
  | allocate_pool (type size : Nat) (err : EFI_STATUS) (buf : Nat)
  | get_memory_map (size buf : Nat) (err : EFI_STATUS)
      (size_out key desc_size desc_version : Nat)
  | free_pool (buf : Nat)
  | StatusToString (buf : Nat) (err : EFI_STATUS)
  | exit (image : Nat) (err : EFI_STATUS) (size buf : Nat) (ret : Option EFI_STATUS)
  deriving DecidableEq, Repr

/-! ## `print_memory_map` -/

/-- The local `mapping_size = desc->NumberOfPages * PAGE_SIZE`: a `UINT64`
product stored in a `UINTN`. -/
def mapping_size (t : Target) (d : EFI_MEMORY_DESCRIPTOR) : Nat :=
  (d.NumberOfPages * t.PAGE_SIZE) % 2 ^ 64 % 2 ^ t.bits

/-- The value of the `int` variable `i` whose 32-bit two's-complement pattern
is `n mod 2 ^ 32`: from `2 ^ 31` on the value is negative. -/
def int_value (n : Nat) : Int :=
  if n % 2 ^ 32 < 2 ^ 31 then ((n % 2 ^ 32 : Nat) : Int)
  else ((n % 2 ^ 32 : Nat) : Int) - 2 ^ 32

/-- The five `Print` calls of one pass through the body of the `while` loop,
for the descriptor `d` under the cursor and the counter value `i`. -/
def print_record (t : Target) (memory_type_to_str : Nat → String) (i : Int)
    (d : EFI_MEMORY_DESCRIPTOR) : List Event :=
  [ .Print "[#%.2d] Type: %s\n" [.int i, .str (memory_type_to_str d.Type_)],
    .Print "      Attr: 0x%016llx\n" [.u64 d.Attribute],
    .Print "      Phys: [0x%016llx - 0x%016llx]\n"
      [.u64 d.PhysicalStart, .u64 ((d.PhysicalStart + mapping_size t d) % 2 ^ 64)],
    .Print "      Virt: [0x%016llx - 0x%016llx]"
      [.u64 d.VirtualStart, .u64 ((d.VirtualStart + mapping_size t d) % 2 ^ 64)],
    .Print "\n" [] ]

/-- The `while ((void *)desc < (void *)buf + size)` loop.  `desc` is the byte
address held by the cursor and `i` the bit pattern of the `int` counter.  Both
the address `buf + size` the cursor is compared with and the step `desc +
desc_size` are pointer arithmetic, done modulo `2 ^ bits`; `i++` is done modulo
`2 ^ 32`.  The result is `none` when the bound on passes is used up before the
loop condition fails. -/
def print_loop (t : Target) (memory_type_to_str : Nat → String) (mem : Memory)
    (buf size desc_size : Nat) : Nat → Nat → Nat → Option (List Event)
  | 0, _, _ => none
  | fuel + 1, desc, i =>
    if desc < (buf + size) % 2 ^ t.bits then
      (print_loop t memory_type_to_str mem buf size desc_size fuel
        ((desc + desc_size) % 2 ^ t.bits) ((i + 1) % 2 ^ 32)).map
        (fun out => print_record t memory_type_to_str (int_value i) (mem desc) ++ out)
    else
      some []

/-- The four header lines printed before the loop. -/
def print_header (size desc_size desc_version : Nat) : List Event :=
  [ .Print "System Memory Map\n" [],
    .Print "System Memory Map Size: %d\n" [.uintn size],
    .Print "Descriptor Version: %d\n" [.uintn desc_version],
    .Print "Descriptor Size: %d\n" [.uintn desc_size] ]

/-- The function `print_memory_map(buf, size, key, desc_size, desc_version)`:
the header, then the loop started at `desc = buf`, `i = 0`. -/
def print_memory_map (t : Target) (memory_type_to_str : Nat → String) (mem : Memory)
    (buf size _key desc_size desc_version : Nat) (fuel : Nat) : Option (List Event) :=
  (print_loop t memory_type_to_str mem buf size desc_size fuel buf 0).map
    (fun out => print_header size desc_size desc_version ++ out)

/-- The number of records in an output: the number of `Print` calls made with
the record-label format. -/
def record_count (out : List Event) : Nat :=
  out.countP (fun e => match e with
    | .Print fmt _ => fmt == "[#%.2d] Type: %s\n"
    | _ => false)

/-- The records of `n` consecutive passes through the loop body, the first at
byte address `desc` with counter pattern `i`, stepping the cursor and the
counter as the loop does. -/
def records_from (t : Target) (memory_type_to_str : Nat → String) (mem : Memory)
    (desc_size : Nat) : Nat → Nat → Nat → List Event
  | 0, _, _ => []
  | n + 1, desc, i =>
    print_record t memory_type_to_str (int_value i) (mem desc) ++
      records_from t memory_type_to_str mem desc_size n
        ((desc + desc_size) % 2 ^ t.bits) ((i + 1) % 2 ^ 32)

/-- The number of strides of `desc_size` bytes needed to cover `size` bytes:
`size / desc_size` rounded up. -/
def ceil_div (size desc_size : Nat) : Nat := (size + desc_size - 1) / desc_size

/-! ## The firmware interface -/

/-- What a `get_memory_map` call leaves behind: the status, the values of the
four variables passed by address (`size`, `map_key`, `desc_size`,
`desc_version`) after the call, and the firmware state. -/
structure GetMapResult (σ : Type) where
  err : EFI_STATUS
  size : Nat
  key : Nat
  desc_size : Nat
  desc_version : Nat
  state : σ

/-- The functions `efi_main` calls, over a firmware state `σ`.
`allocate_pool s type size` gives the status, the pointer stored through the
third argument and the next state; `get_memory_map s size buf` is given the
value of `size` and the buffer; `mem s` is memory as the firmware left it;
`exit` gives `none` when it does not return to the image. -/
structure Firmware (σ : Type) where
  InitializeLib : σ → Nat → Nat → σ
  register_table : σ → Nat → Bool × σ
  allocate_pool : σ → Nat → Nat → EFI_STATUS × Nat × σ
  free_pool : σ → Nat → EFI_STATUS × σ
  get_memory_map : σ → Nat → Nat → GetMapResult σ
  mem : σ → Memory
  memory_type_to_str : Nat → String
  StatusToString : σ → Nat → EFI_STATUS → σ
  exit : σ → Nat → EFI_STATUS → Nat → Nat → Option EFI_STATUS × σ

/-- How a run of `efi_main` ends. -/
inductive Outcome where
  | returned (status : EFI_STATUS)
  | exited (status : EFI_STATUS)
  | out_of_fuel
  deriving DecidableEq, Repr

/-- The status that reaches the caller of the image: the value `efi_main`
returned, or the status given to `exit` when `exit` did not return. -/
def Outcome.status : Outcome → Option EFI_STATUS
  | .returned v => some v
  | .exited v => some v
  | .out_of_fuel => none

/-- A run: how it ended, the events in program order, and the firmware state
at the end. -/
structure Run (σ : Type) where
  outcome : Outcome
  trace : List Event
  state : σ

/-- The run `r` preceded by the events `pre`. -/
def Run.after {σ : Type} (pre : List Event) (r : Run σ) : Run σ :=
  ⟨r.outcome, pre ++ r.trace, r.state⟩

/-! ## `efi_main` -/

/-- The statement `return exit(image, err, size, error_buf)`: when `exit` comes
back with `ret` the routine returns `ret`; when it does not come back the image
has ended with the status `err` it passed. -/
def exit_outcome (err : EFI_STATUS) : Option EFI_STATUS → Outcome
  | some ret => .returned ret
  | none => .exited err

/-- The code at the label `failed:`, entered with the values of `err` and
`size`. -/
def failed {σ : Type} (fw : Firmware σ) (image : Nat) (err : EFI_STATUS) (size : Nat)
    (s : σ) : Run σ :=
  let a := fw.allocate_pool s EfiLoaderData ERROR_STRING_LENGTH
  if a.1 ≠ EFI_SUCCESS then
    ⟨.returned err,
      [.allocate_pool EfiLoaderData ERROR_STRING_LENGTH a.1 a.2.1,
       .Print "Couldn't allocate pages for error string\n" []],
      a.2.2⟩
  else
    let error_buf := a.2.1
    let s1 := fw.StatusToString a.2.2 error_buf err
    let x := fw.exit s1 image err size error_buf
    ⟨exit_outcome err x.1,
      [.allocate_pool EfiLoaderData ERROR_STRING_LENGTH a.1 error_buf,
       .StatusToString error_buf err,
       .Print ": %s\n" [.wbuf error_buf],
       .exit image err size error_buf x.1],
      x.2⟩

/-- The code from the label `get_map:` to the end of `efi_main`, entered with
the value of `size`.  `fuel` bounds the number of passes through the label,
`pfuel` the iterations of the loop in `print_memory_map`. -/
def get_map {σ : Type} (t : Target) (fw : Firmware σ) (image pfuel : Nat) :
    Nat → Nat → σ → Run σ
  | 0, _, s => ⟨.out_of_fuel, [], s⟩
  | fuel + 1, size0, s =>
    let size := (size0 + t.sizeof_desc) % 2 ^ t.bits
    let a := fw.allocate_pool s EfiLoaderData size
    let map_buf := a.2.1
    if a.1 ≠ EFI_SUCCESS then
      (failed fw image a.1 size a.2.2).after
        [.allocate_pool EfiLoaderData size a.1 map_buf,
         .Print "Failed to allocate pool for memory map" []]
    else
      let r := fw.get_memory_map a.2.2 size map_buf
      if r.err ≠ EFI_SUCCESS then
        if r.err = EFI_BUFFER_TOO_SMALL t then
          (get_map t fw image pfuel fuel r.size (fw.free_pool r.state map_buf).2).after
            [.allocate_pool EfiLoaderData size a.1 map_buf,
             .get_memory_map size map_buf r.err r.size r.key r.desc_size r.desc_version,
             .free_pool map_buf,
             .Print "Failed to get map, retry size=%d\n" [.uintn r.size]]
        else
          (failed fw image r.err r.size r.state).after
            [.allocate_pool EfiLoaderData size a.1 map_buf,
             .get_memory_map size map_buf r.err r.size r.key r.desc_size r.desc_version,
             .Print "Failed to get memory map" []]
      else
        match print_memory_map t fw.memory_type_to_str (fw.mem r.state) map_buf r.size r.key
            r.desc_size r.desc_version pfuel with
        | some out =>
          ⟨.returned EFI_SUCCESS,
            .allocate_pool EfiLoaderData size a.1 map_buf ::
            .get_memory_map size map_buf r.err r.size r.key r.desc_size r.desc_version :: out,
            r.state⟩
        | none =>
          ⟨.out_of_fuel,
            [.allocate_pool EfiLoaderData size a.1 map_buf,
             .get_memory_map size map_buf r.err r.size r.key r.desc_size r.desc_version],
            r.state⟩

/-- The function `efi_main(image, sys_table)`, started in firmware state `s`. -/
def efi_main {σ : Type} (t : Target) (fw : Firmware σ) (fuel pfuel : Nat)
    (image sys_table : Nat) (s : σ) : Run σ :=
  let s1 := fw.InitializeLib s image sys_table
  let reg := fw.register_table s1 sys_table
  if reg.1 ≠ true then
    ⟨.returned (EFI_LOAD_ERROR t),
      [.InitializeLib image sys_table, .register_table sys_table reg.1], reg.2⟩
  else
    (get_map t fw image pfuel fuel (t.sizeof_desc * 31 % 2 ^ t.bits) reg.2).after
      [.InitializeLib image sys_table, .register_table sys_table reg.1,
       .Print "efilinux loader\n" []]

/-- The pool as the list of live buffers: a successful `allocate_pool` adds the
buffer it returned, `free_pool` takes the buffer it is given away. -/
def live_after : List Nat → List Event → List Nat
  | l, [] => l
  | l, .allocate_pool _ _ err buf :: tr =>
    live_after (if err = EFI_SUCCESS then l ++ [buf] else l) tr
  | l, .free_pool buf :: tr => live_after (l.erase buf) tr
  | l, _ :: tr => live_after l tr

/-- The buffers live at the end of a trace that started with an empty pool. -/
def live (tr : List Event) : List Nat := live_after [] tr

/-! ## Concrete data for the example runs -/

/-- A descriptor of one conventional-memory page at physical address `0x1000`. -/
def sample_desc : EFI_MEMORY_DESCRIPTOR := ⟨7, 4096, 0, 1, 15⟩

/-- A descriptor of two pages whose physical range ends past `2 ^ 64`. -/
def high_desc : EFI_MEMORY_DESCRIPTOR := ⟨7, 2 ^ 64 - 4096, 0, 2, 15⟩

/-- Memory holding `sample_desc` at every address. -/
def sample_mem : Memory := fun _ => sample_desc

/-- Memory holding `high_desc` at every address. -/
def high_mem : Memory := fun _ => high_desc

/-- Names for the memory types of the concrete runs. -/
def sample_type_to_str (ty : Nat) : String :=
  if ty = 7 then "EfiConventionalMemory" else "Unknown"

/-! ## A scripted firmware, for concrete runs -/

/-- The answers a scripted firmware will give: to the `allocate_pool` calls in
order, and to the `get_memory_map` calls in order. -/
structure Script where
  allocs : List (EFI_STATUS × Nat)
  maps : List (EFI_STATUS × Nat × Nat × Nat × Nat)
  deriving DecidableEq, Repr

/-- A firmware that answers from a script.  Past the end of the script
`allocate_pool` fails with `EFI_OUT_OF_RESOURCES` and `get_memory_map` with
`EFI_INVALID_PARAMETER`; `exit` always answers `exit_ret`; memory holds at
every address the descriptor `mem` gives. -/
def scripted (t : Target) (mem : Memory) (exit_ret : Option EFI_STATUS) : Firmware Script where
  InitializeLib := fun s _ _ => s
  register_table := fun s _ => (true, s)
  allocate_pool := fun s _ _ =>
    match s.allocs with
    | [] => (EFI_OUT_OF_RESOURCES t, 0, s)
    | a :: rest => (a.1, a.2, ⟨rest, s.maps⟩)
  free_pool := fun s _ => (EFI_SUCCESS, s)
  get_memory_map := fun s size _ =>
    match s.maps with
    | [] => ⟨EFI_INVALID_PARAMETER t, size, 0, 0, 0, s⟩
    | m :: rest => ⟨m.1, m.2.1, m.2.2.1, m.2.2.2.1, m.2.2.2.2, ⟨s.allocs, rest⟩⟩
  mem := fun _ => mem
  memory_type_to_str := sample_type_to_str
  StatusToString := fun s _ _ => s
  exit := fun s _ _ _ _ => (exit_ret, s)

/-- A script in which the first `get_memory_map` call reports that 2048 bytes
are required and the second succeeds with a 96-byte map of 48-byte
descriptors. -/
def retry_script : Script :=
  ⟨[(EFI_SUCCESS, 4096), (EFI_SUCCESS, 8192)],
   [(EFI_BUFFER_TOO_SMALL x86_64, 2048, 0, 48, 1), (EFI_SUCCESS, 96, 7, 48, 1)]⟩

/-- A script in which the first `get_memory_map` call reports a required size
of `2 ^ 64 - 40` bytes. -/
def wrap_script : Script :=
  ⟨[(EFI_SUCCESS, 4096), (EFI_SUCCESS, 8192)],
   [(EFI_BUFFER_TOO_SMALL x86_64, 2 ^ 64 - 40, 0, 48, 1), (EFI_SUCCESS, 96, 7, 48, 1)]⟩

/-- A script in which the first `get_memory_map` call reports that 2048 bytes
are required and the second succeeds with a 96-byte map and descriptor size
0. -/
def zero_stride_script : Script :=
  ⟨[(EFI_SUCCESS, 4096), (EFI_SUCCESS, 8192)],
   [(EFI_BUFFER_TOO_SMALL x86_64, 2048, 0, 48, 1), (EFI_SUCCESS, 96, 7, 0, 1)]⟩

/-- A script in which the first `get_memory_map` call reports that 2048 bytes
are required and the second succeeds with a map of `2 ^ 63 + 1` bytes and
descriptor size `2 ^ 63`. -/
def huge_stride_script : Script :=
  ⟨[(EFI_SUCCESS, 4096), (EFI_SUCCESS, 8192)],
   [(EFI_BUFFER_TOO_SMALL x86_64, 2048, 0, 48, 1), (EFI_SUCCESS, 2 ^ 63 + 1, 7, 2 ^ 63, 1)]⟩

/-- A script in which the first `get_memory_map` call fails with
`EFI_DEVICE_ERROR` (`EFIERR(7)`). -/
def device_error_script : Script :=
  ⟨[(EFI_SUCCESS, 4096), (EFI_SUCCESS, 8192)], [(EFIERR x86_64 7, 1280, 0, 0, 0)]⟩

/-- A script in which the first `allocate_pool` call fails with
`EFI_OUT_OF_RESOURCES` and the second succeeds. -/
def no_pool_script : Script :=
  ⟨[(EFI_OUT_OF_RESOURCES x86_64, 0), (EFI_SUCCESS, 8192)], []⟩

theorem ceil_div_covers (size ds : Nat) (hds : 0 < ds) : size ≤ ceil_div size ds * ds := by
  unfold ceil_div
  have h := Nat.div_add_mod (size + ds - 1) ds
  have h2 := Nat.mod_lt (size + ds - 1) hds
  have h3 : ds * ((size + ds - 1) / ds) = (size + ds - 1) / ds * ds := Nat.mul_comm _ _
  omega

theorem lt_ceil_div (size ds k : Nat) (hds : 0 < ds) (hk : k < ceil_div size ds) :
    k * ds < size := by
  unfold ceil_div at hk
  have h : (k + 1) * ds ≤ size + ds - 1 := (Nat.le_div_iff_mul_le hds).1 hk
  rw [Nat.add_mul] at h
  omega

theorem ceil_div_of_dvd (size ds : Nat) (hds : 0 < ds) (h : ds ∣ size) :
    ceil_div size ds = size / ds := by
  obtain ⟨c, rfl⟩ := h
  unfold ceil_div
  rw [Nat.mul_div_cancel_left c hds]
  have h1 : ds * c + ds - 1 = ds - 1 + ds * c := by omega
  rw [h1, Nat.add_mul_div_left _ _ hds, Nat.div_eq_of_lt (by omega)]
  omega

theorem ceil_div_of_not_dvd (size ds : Nat) (hds : 0 < ds) (h : ¬ ds ∣ size) :
    ceil_div size ds = size / ds + 1 := by
  have hm : 0 < size % ds := Nat.pos_of_ne_zero (fun h0 => h (Nat.dvd_of_mod_eq_zero h0))
  have hlt := Nat.mod_lt size hds
  have hdm := Nat.div_add_mod size ds
  unfold ceil_div
  have h1 : size + ds - 1 = (size % ds - 1) + ds * (size / ds + 1) := by
    rw [Nat.mul_add]; omega
  rw [h1, Nat.add_mul_div_left _ _ hds, Nat.div_eq_of_lt (by omega)]
  omega

theorem ceil_div_zero (ds : Nat) : ceil_div 0 ds = 0 := by
  unfold ceil_div
  rcases Nat.eq_zero_or_pos ds with h | h
  · subst h; rfl
  · exact Nat.div_eq_of_lt (by omega)

theorem int_value_mod (n : Nat) : int_value (n % 2 ^ 32) = int_value n := by
  unfold int_value
  rw [Nat.mod_mod]

/-- Every output of the loop is a sequence of records stepped as the loop
steps. -/
theorem print_loop_records (t : Target) (mts : Nat → String) (mem : Memory)
    (buf size ds : Nat) :
    ∀ (fuel desc i : Nat) (out : List Event),
      print_loop t mts mem buf size ds fuel desc i = some out →
      ∃ n, out = records_from t mts mem ds n desc i := by
  intro fuel
  induction fuel with
  | zero => intro desc i out h; simp [print_loop] at h
  | succ fuel ih =>
    intro desc i out h
    unfold print_loop at h
    split at h
    · cases hrec : print_loop t mts mem buf size ds fuel ((desc + ds) % 2 ^ t.bits)
          ((i + 1) % 2 ^ 32) with
      | none => rw [hrec] at h; exact absurd h (by simp)
      | some o =>
        rw [hrec] at h
        simp only [Option.map_some', Option.some.injEq] at h
        obtain ⟨n, hn⟩ := ih _ _ _ hrec
        exact ⟨n + 1, by rw [← h, hn, records_from]⟩
    · simp only [Option.some.injEq] at h
      exact ⟨0, by rw [← h, records_from]⟩

theorem print_memory_map_records (t : Target) (mts : Nat → String) (mem : Memory)
    (buf size key ds dv fuel : Nat) (out : List Event)
    (h : print_memory_map t mts mem buf size key ds dv fuel = some out) :
    ∃ n, out = print_header size ds dv ++ records_from t mts mem ds n buf 0 := by
  unfold print_memory_map at h
  cases hrec : print_loop t mts mem buf size ds fuel buf 0 with
  | none => simp [hrec] at h
  | some o =>
    simp [hrec] at h
    obtain ⟨n, hn⟩ := print_loop_records t mts mem buf size ds fuel buf 0 o hrec
    exact ⟨n, by rw [← h, hn]⟩

/-- The loop when neither the end pointer nor the cursor wraps. -/
theorem print_loop_some (t : Target) (mts : Nat → String) (mem : Memory)
    (buf size ds : Nat) (hend : buf + size < 2 ^ t.bits) :
    ∀ (n fuel desc i : Nat), desc + n * ds < 2 ^ t.bits → buf + size ≤ desc + n * ds →
      (∀ k, k < n → desc + k * ds < buf + size) → n < fuel →
      print_loop t mts mem buf size ds fuel desc i = some (records_from t mts mem ds n desc i) := by
  intro n
  induction n with
  | zero =>
    intro fuel desc i _ h1 _ hf
    obtain ⟨f, rfl⟩ : ∃ f, fuel = f + 1 := ⟨fuel - 1, by omega⟩
    have : ¬ desc < (buf + size) % 2 ^ t.bits := by
      rw [Nat.mod_eq_of_lt hend]; omega
    simp [print_loop, this, records_from]
  | succ n ih =>
    intro fuel desc i hw h1 h2 hf
    obtain ⟨f, rfl⟩ : ∃ f, fuel = f + 1 := ⟨fuel - 1, by omega⟩
    have h0 : desc < (buf + size) % 2 ^ t.bits := by
      rw [Nat.mod_eq_of_lt hend]; simpa using h2 0 (by omega)
    rw [Nat.add_mul] at hw h1
    have hstep : (desc + ds) % 2 ^ t.bits = desc + ds :=
      Nat.mod_eq_of_lt (by have := Nat.zero_le (n * ds); omega)
    have ih2 := ih f (desc + ds) ((i + 1) % 2 ^ 32) (by omega) (by omega)
      (fun k hk => by have := h2 (k + 1) (by omega); rw [Nat.add_mul] at this; omega) (by omega)
    simp [print_loop, h0, hstep, ih2, records_from, -Nat.reducePow]

/-- The output of `print_memory_map` for an empty map, or for a positive stride
when the cursor does not wrap. -/
theorem print_memory_map_eq (t : Target) (mts : Nat → String) (mem : Memory)
    (buf size key ds dv fuel : Nat)
    (hds : size = 0 ∨ (0 < ds ∧ buf + ceil_div size ds * ds < 2 ^ t.bits))
    (hf : ceil_div size ds < fuel) :
    print_memory_map t mts mem buf size key ds dv fuel =
      some (print_header size ds dv ++ records_from t mts mem ds (ceil_div size ds) buf 0) := by
  unfold print_memory_map
  rcases hds with h0 | ⟨hds, hw⟩
  · subst h0
    rw [ceil_div_zero] at hf ⊢
    obtain ⟨f, rfl⟩ : ∃ f, fuel = f + 1 := ⟨fuel - 1, by omega⟩
    have : ¬ buf < (buf + 0) % 2 ^ t.bits := by
      have := Nat.mod_le buf (2 ^ t.bits)
      simp only [Nat.add_zero]; omega
    rw [print_loop, if_neg this]
    rfl
  · have hc := ceil_div_covers size ds hds
    rw [print_loop_some t mts mem buf size ds (by omega) (ceil_div size ds) fuel buf 0
      hw (by omega) (fun k hk => by have := lt_ceil_div size ds k hds hk; omega) hf]
    rfl

theorem records_from_length (t : Target) (mts : Nat → String) (mem : Memory) (ds : Nat) :
    ∀ (n desc i : Nat), (records_from t mts mem ds n desc i).length = 5 * n := by
  intro n
  induction n with
  | zero => intro desc i; simp [records_from]
  | succ n ih => intro desc i; simp [records_from, print_record, ih]; omega

theorem record_count_records_from (t : Target) (mts : Nat → String) (mem : Memory) (ds : Nat) :
    ∀ (n desc i : Nat), record_count (records_from t mts mem ds n desc i) = n := by
  intro n
  induction n with
  | zero => intro desc i; simp [records_from, record_count]
  | succ n ih =>
    intro desc i
    have := ih ((desc + ds) % 2 ^ t.bits) ((i + 1) % 2 ^ 32)
    simp only [record_count] at this ⊢
    simp [records_from, print_record, List.countP_cons, this, -Nat.reducePow]

theorem record_count_header_append (size ds dv : Nat) (l : List Event) :
    record_count (print_header size ds dv ++ l) = record_count l := by
  simp [record_count, print_header, List.countP_cons]

/-- The `k`-th of `n` records: the counter has the value of `i + k` as an `int`
and the cursor is at `desc + k * desc_size` modulo `2 ^ bits`. -/
theorem records_from_nth (t : Target) (mts : Nat → String) (mem : Memory) (ds : Nat) :
    ∀ (n desc i k : Nat), desc < 2 ^ t.bits → k < n →
      ((records_from t mts mem ds n desc i).drop (5 * k)).take 5 =
        print_record t mts (int_value (i + k)) (mem ((desc + k * ds) % 2 ^ t.bits)) := by
  intro n
  induction n with
  | zero => intro desc i k _ hk; omega
  | succ n ih =>
    intro desc i k hd hk
    cases k with
    | zero =>
      simp [records_from, print_record, Nat.mod_eq_of_lt hd]
    | succ k =>
      have hpos : 0 < 2 ^ t.bits := Nat.two_pow_pos _
      have h := ih ((desc + ds) % 2 ^ t.bits) ((i + 1) % 2 ^ 32) k (Nat.mod_lt _ hpos) (by omega)
      have e1 : 5 * (k + 1) = 5 * k + 5 := by omega
      have e2 : ((desc + ds) % 2 ^ t.bits + k * ds) % 2 ^ t.bits =
          (desc + (k + 1) * ds) % 2 ^ t.bits := by
        rw [Nat.mod_add_mod, Nat.add_mul]
        congr 1
        omega
      have e3 : int_value ((i + 1) % 2 ^ 32 + k) = int_value (i + (k + 1)) := by
        rw [← int_value_mod ((i + 1) % 2 ^ 32 + k), Nat.mod_add_mod, int_value_mod]
        congr 1
        omega
      rw [e2, e3] at h
      rw [e1, ← h]
      simp [records_from, print_record, ← List.drop_drop, -Nat.reducePow]

/-- The `k`-th record of an output of `print_memory_map`. -/
theorem print_memory_map_nth (t : Target) (mts : Nat → String) (mem : Memory)
    (buf size key ds dv fuel : Nat) (out : List Event)
    (h : print_memory_map t mts mem buf size key ds dv fuel = some out)
    (hbuf : buf < 2 ^ t.bits) (k : Nat) (hk : 4 + 5 * k < out.length) :
    (out.drop (4 + 5 * k)).take 5 =
      print_record t mts (int_value k) (mem ((buf + k * ds) % 2 ^ t.bits)) := by
  obtain ⟨n, rfl⟩ := print_memory_map_records t mts mem buf size key ds dv fuel out h
  have hlen : (print_header size ds dv ++ records_from t mts mem ds n buf 0).length
      = 4 + 5 * n := by
    rw [List.length_append, records_from_length]; simp [print_header]
  rw [hlen] at hk
  have hr := records_from_nth t mts mem ds n buf 0 k hbuf (by omega)
  have e : (print_header size ds dv ++ records_from t mts mem ds n buf 0).drop
      (4 + 5 * k) = (records_from t mts mem ds n buf 0).drop (5 * k) := by
    rw [Nat.add_comm, ← List.drop_drop]
    simp [print_header]
  rw [e, hr]
  simp

theorem print_loop_all_print (t : Target) (mts : Nat → String) (mem : Memory)
    (buf size ds : Nat) (fuel desc i : Nat) (out : List Event)
    (h : print_loop t mts mem buf size ds fuel desc i = some out) :
    ∀ e, e ∈ out → ∃ fmt args, e = .Print fmt args := by
  obtain ⟨n, rfl⟩ := print_loop_records t mts mem buf size ds fuel desc i out h
  clear h
  induction n generalizing desc i with
  | zero => intro e he; simp [records_from] at he
  | succ n ih =>
    intro e he
    rw [records_from] at he
    rcases List.mem_append.1 he with h1 | h1
    · simp [print_record] at h1
      rcases h1 with h1 | h1 | h1 | h1 | h1 <;> exact ⟨_, _, h1⟩
    · exact ih _ _ e h1

theorem print_memory_map_all_print (t : Target) (mts : Nat → String) (mem : Memory)
    (buf size key ds dv fuel : Nat) (out : List Event)
    (h : print_memory_map t mts mem buf size key ds dv fuel = some out) :
    ∀ e, e ∈ out → ∃ fmt args, e = .Print fmt args := by
  intro e he
  unfold print_memory_map at h
  cases hrec : print_loop t mts mem buf size ds fuel buf 0 with
  | none => simp [hrec] at h
  | some o =>
    simp [hrec] at h
    subst h
    rcases List.mem_append.1 he with h1 | h1
    · simp [print_header] at h1
      rcases h1 with h1 | h1 | h1 | h1 <;> exact ⟨_, _, h1⟩
    · exact print_loop_all_print t mts mem buf size ds fuel buf 0 o hrec e h1

/-- The loop does not return while the cursor stays in a set of addresses below
the end pointer that the step maps into itself. -/
theorem print_loop_never (t : Target) (mts : Nat → String) (mem : Memory)
    (buf size ds : Nat) (P : Nat → Prop)
    (hP : ∀ d, P d → d < (buf + size) % 2 ^ t.bits ∧ P ((d + ds) % 2 ^ t.bits)) :
    ∀ (fuel desc i : Nat), P desc → print_loop t mts mem buf size ds fuel desc i = none := by
  intro fuel
  induction fuel with
  | zero => intro desc i _; rfl
  | succ fuel ih =>
    intro desc i hd
    obtain ⟨h1, h2⟩ := hP desc hd
    simp [print_loop, h1, ih _ _ h2, -Nat.reducePow]

/-- C1, as stated, fails.  With `totalSize = 100` and `descriptorSize = 48`
(not a multiple) `print_memory_map` prints three records, the third one read at
offset 96, and not `100 / 48 = 2`.  And on the x86_64 build with the buffer at
address 4096, `totalSize = 48` and `descriptorSize = 2 ^ 64 - 4096` the cursor
wraps to address 0, below the end pointer, and a second record is printed,
where `48 / (2 ^ 64 - 4096) = 0`. -/
theorem print_memory_map_count_counterexample :
    ((print_memory_map x86_64 sample_type_to_str sample_mem 4096 100 0 48 1 4).map
        record_count = some 3 ∧
      (print_memory_map x86_64 sample_type_to_str sample_mem 4096 100 0 48 1 4).map
        record_count ≠ some (100 / 48)) ∧
    ((print_memory_map x86_64 sample_type_to_str sample_mem 4096 48 0
        18446744073709547520 1 4).map record_count = some 2 ∧
      48 / 18446744073709547520 = 0 ∧ ceil_div 48 18446744073709547520 = 1) := by
  decide

/-- C1, amended: for every buffer, `totalSize` and `descriptorSize > 0` for
which the cursor does not wrap around the address space (`buf +
descriptorSize * ⌈totalSize / descriptorSize⌉ < 2 ^ bits`), `print_memory_map`
returns (given more passes than records) and prints exactly `totalSize /
descriptorSize` rounded up records: `totalSize / descriptorSize` when
`totalSize` is an exact multiple of `descriptorSize`, one more when it is not.
Every record starts at an offset below `totalSize` and the iteration stops at
the first descriptor boundary at or past `totalSize`; with `totalSize = 0` it
prints the header and no record. -/
theorem print_memory_map_count (t : Target) (mts : Nat → String) (mem : Memory)
    (buf size key ds dv fuel : Nat) (hds : 0 < ds)
    (hw : buf + ceil_div size ds * ds < 2 ^ t.bits) (hf : ceil_div size ds < fuel) :
    ∃ out, print_memory_map t mts mem buf size key ds dv fuel = some out ∧
      record_count out = ceil_div size ds ∧
      (ds ∣ size → record_count out = size / ds) ∧
      (¬ ds ∣ size → record_count out = size / ds + 1) ∧
      (∀ k, k < record_count out → k * ds < size) ∧
      size ≤ record_count out * ds ∧
      (size = 0 → out = print_header 0 ds dv) := by
  refine ⟨_, print_memory_map_eq t mts mem buf size key ds dv fuel (Or.inr ⟨hds, hw⟩) hf,
    ?_, ?_, ?_, ?_, ?_, ?_⟩
  · rw [record_count_header_append, record_count_records_from]
  · intro h
    rw [record_count_header_append, record_count_records_from, ceil_div_of_dvd size ds hds h]
  · intro h
    rw [record_count_header_append, record_count_records_from, ceil_div_of_not_dvd size ds hds h]
  · intro k hk
    rw [record_count_header_append, record_count_records_from] at hk
    exact lt_ceil_div size ds k hds hk
  · rw [record_count_header_append, record_count_records_from]
    exact ceil_div_covers size ds hds
  · intro h
    subst h
    simp [ceil_div_zero, records_from]

/-- Witness for C1 amended: the x86_64 build, a 96-byte map of 48-byte
descriptors at address 4096. -/
theorem print_memory_map_count_witness :
    (0 < 48 ∧ 4096 + ceil_div 96 48 * 48 < 2 ^ x86_64.bits ∧ ceil_div 96 48 < 3) ∧
    (∃ out, print_memory_map x86_64 sample_type_to_str sample_mem 4096 96 0 48 1 3 = some out ∧
      record_count out = ceil_div 96 48 ∧
      (48 ∣ 96 → record_count out = 96 / 48) ∧
      (¬ 48 ∣ 96 → record_count out = 96 / 48 + 1) ∧
      (∀ k, k < record_count out → k * 48 < 96) ∧
      96 ≤ record_count out * 48 ∧
      (96 = 0 → out = print_header 0 48 1)) ∧
    ((print_memory_map x86_64 sample_type_to_str sample_mem 4096 96 0 48 1 3).map
      record_count = some 2) :=
  ⟨by decide,
   print_memory_map_count x86_64 sample_type_to_str sample_mem 4096 96 0 48 1 3
     (by decide) (by decide) (by decide),
   by decide⟩

/-- C6, as stated, fails: on the x86_64 build a descriptor with `PhysicalStart =
2 ^ 64 - 4096` and `NumberOfPages = 2` is printed with the physical range
`[0xfffffffffffff000 - 0x0000000000001000]`: the printed end is below the
printed start and is not `start + 2 * PAGE_SIZE`. -/
theorem print_memory_map_range_counterexample :
    (print_memory_map x86_64 sample_type_to_str high_mem 4096 48 0 48 1 2).bind
        (fun out => out[6]?) =
      some (.Print "      Phys: [0x%016llx - 0x%016llx]\n"
        [.u64 18446744073709547520, .u64 4096]) ∧
      ¬ (18446744073709547520 ≤ 4096) ∧
      4096 ≠ 18446744073709547520 + 2 * x86_64.PAGE_SIZE := by
  decide

/-- C6, amended: for every descriptor printed by `print_memory_map`, the two
values printed for the physical range are `PhysicalStart` and `(PhysicalStart +
mapping_size) mod 2 ^ 64`, and likewise for the virtual range, where
`mapping_size` is `NumberOfPages * PAGE_SIZE` reduced to a `UINTN`; whenever
`NumberOfPages * PAGE_SIZE` fits a `UINTN` and `start + NumberOfPages *
PAGE_SIZE < 2 ^ 64`, the printed range satisfies `end = start + NumberOfPages *
PAGE_SIZE` and `end ≥ start`.  This holds for the `k`-th record of every output
(the descriptor at address `(buf + k * descriptorSize) mod 2 ^ bits`), and
`print_memory_map` returns with the records of the descriptors at offsets `k *
descriptorSize` when `descriptorSize > 0` and the cursor does not wrap. -/
theorem print_memory_map_range (t : Target) (mts : Nat → String) (mem : Memory)
    (buf size key ds dv fuel : Nat) :
    (∀ out, print_memory_map t mts mem buf size key ds dv fuel = some out →
      buf < 2 ^ t.bits → ∀ k, 4 + 5 * k < out.length →
        ∃ pe ve,
          out[4 + 5 * k + 2]? = some (.Print "      Phys: [0x%016llx - 0x%016llx]\n"
            [.u64 (mem ((buf + k * ds) % 2 ^ t.bits)).PhysicalStart, .u64 pe]) ∧
          out[4 + 5 * k + 3]? = some (.Print "      Virt: [0x%016llx - 0x%016llx]"
            [.u64 (mem ((buf + k * ds) % 2 ^ t.bits)).VirtualStart, .u64 ve]) ∧
          pe = ((mem ((buf + k * ds) % 2 ^ t.bits)).PhysicalStart +
            mapping_size t (mem ((buf + k * ds) % 2 ^ t.bits))) % 2 ^ 64 ∧
          ve = ((mem ((buf + k * ds) % 2 ^ t.bits)).VirtualStart +
            mapping_size t (mem ((buf + k * ds) % 2 ^ t.bits))) % 2 ^ 64 ∧
          ((mem ((buf + k * ds) % 2 ^ t.bits)).NumberOfPages * t.PAGE_SIZE < 2 ^ t.bits →
            (mem ((buf + k * ds) % 2 ^ t.bits)).PhysicalStart +
              (mem ((buf + k * ds) % 2 ^ t.bits)).NumberOfPages * t.PAGE_SIZE < 2 ^ 64 →
            pe = (mem ((buf + k * ds) % 2 ^ t.bits)).PhysicalStart +
              (mem ((buf + k * ds) % 2 ^ t.bits)).NumberOfPages * t.PAGE_SIZE
              ∧ (mem ((buf + k * ds) % 2 ^ t.bits)).PhysicalStart ≤ pe) ∧
          ((mem ((buf + k * ds) % 2 ^ t.bits)).NumberOfPages * t.PAGE_SIZE < 2 ^ t.bits →
            (mem ((buf + k * ds) % 2 ^ t.bits)).VirtualStart +
              (mem ((buf + k * ds) % 2 ^ t.bits)).NumberOfPages * t.PAGE_SIZE < 2 ^ 64 →
            ve = (mem ((buf + k * ds) % 2 ^ t.bits)).VirtualStart +
              (mem ((buf + k * ds) % 2 ^ t.bits)).NumberOfPages * t.PAGE_SIZE
              ∧ (mem ((buf + k * ds) % 2 ^ t.bits)).VirtualStart ≤ ve)) ∧
    (0 < ds → buf + ceil_div size ds * ds < 2 ^ t.bits → ceil_div size ds < fuel →
      ∃ out, print_memory_map t mts mem buf size key ds dv fuel = some out ∧
      ∀ k, k < ceil_div size ds →
        ∃ pe ve,
          out[4 + 5 * k + 2]? = some (.Print "      Phys: [0x%016llx - 0x%016llx]\n"
            [.u64 (mem (buf + k * ds)).PhysicalStart, .u64 pe]) ∧
          out[4 + 5 * k + 3]? = some (.Print "      Virt: [0x%016llx - 0x%016llx]"
            [.u64 (mem (buf + k * ds)).VirtualStart, .u64 ve]) ∧
          pe = ((mem (buf + k * ds)).PhysicalStart + mapping_size t (mem (buf + k * ds))) % 2 ^ 64 ∧
          ve = ((mem (buf + k * ds)).VirtualStart + mapping_size t (mem (buf + k * ds))) % 2 ^ 64 ∧
          ((mem (buf + k * ds)).NumberOfPages * t.PAGE_SIZE < 2 ^ t.bits →
            (mem (buf + k * ds)).PhysicalStart + (mem (buf + k * ds)).NumberOfPages * t.PAGE_SIZE
              < 2 ^ 64 →
            pe = (mem (buf + k * ds)).PhysicalStart + (mem (buf + k * ds)).NumberOfPages * t.PAGE_SIZE
              ∧ (mem (buf + k * ds)).PhysicalStart ≤ pe) ∧
          ((mem (buf + k * ds)).NumberOfPages * t.PAGE_SIZE < 2 ^ t.bits →
            (mem (buf + k * ds)).VirtualStart + (mem (buf + k * ds)).NumberOfPages * t.PAGE_SIZE
              < 2 ^ 64 →
            ve = (mem (buf + k * ds)).VirtualStart + (mem (buf + k * ds)).NumberOfPages * t.PAGE_SIZE
              ∧ (mem (buf + k * ds)).VirtualStart ≤ ve)) := by
  have hms : ∀ d : EFI_MEMORY_DESCRIPTOR, d.NumberOfPages * t.PAGE_SIZE < 2 ^ t.bits →
      ∀ st, st + d.NumberOfPages * t.PAGE_SIZE < 2 ^ 64 →
        (st + mapping_size t d) % 2 ^ 64 = st + d.NumberOfPages * t.PAGE_SIZE ∧
          st ≤ (st + mapping_size t d) % 2 ^ 64 := by
    intro d hb st h64
    have e : mapping_size t d = d.NumberOfPages * t.PAGE_SIZE := by
      unfold mapping_size
      have h1 : d.NumberOfPages * t.PAGE_SIZE % 2 ^ 64 = d.NumberOfPages * t.PAGE_SIZE :=
        Nat.mod_eq_of_lt (by omega)
      rw [h1, Nat.mod_eq_of_lt hb]
    rw [e, Nat.mod_eq_of_lt h64]
    exact ⟨rfl, Nat.le_add_right _ _⟩
  have rows : ∀ out, print_memory_map t mts mem buf size key ds dv fuel = some out →
      buf < 2 ^ t.bits → ∀ k, 4 + 5 * k < out.length →
      out[4 + 5 * k + 2]? = some (.Print "      Phys: [0x%016llx - 0x%016llx]\n"
        [.u64 (mem ((buf + k * ds) % 2 ^ t.bits)).PhysicalStart,
         .u64 (((mem ((buf + k * ds) % 2 ^ t.bits)).PhysicalStart +
            mapping_size t (mem ((buf + k * ds) % 2 ^ t.bits))) % 2 ^ 64)]) ∧
      out[4 + 5 * k + 3]? = some (.Print "      Virt: [0x%016llx - 0x%016llx]"
        [.u64 (mem ((buf + k * ds) % 2 ^ t.bits)).VirtualStart,
         .u64 (((mem ((buf + k * ds) % 2 ^ t.bits)).VirtualStart +
            mapping_size t (mem ((buf + k * ds) % 2 ^ t.bits))) % 2 ^ 64)]) := by
    intro out h hbuf k hk
    have hn := print_memory_map_nth t mts mem buf size key ds dv fuel out h hbuf k hk
    have h2 := congrArg (fun l => l[2]?) hn
    have h3 := congrArg (fun l => l[3]?) hn
    simp only [print_record] at h2 h3
    exact ⟨by simpa [List.getElem?_take, List.getElem?_drop, Nat.add_assoc] using h2,
      by simpa [List.getElem?_take, List.getElem?_drop, Nat.add_assoc] using h3⟩
  refine ⟨?_, ?_⟩
  · intro out h hbuf k hk
    obtain ⟨r2, r3⟩ := rows out h hbuf k hk
    exact ⟨_, _, r2, r3, rfl, rfl, fun hb h64 => hms _ hb _ h64, fun hb h64 => hms _ hb _ h64⟩
  · intro hds hw hf
    have h := print_memory_map_eq t mts mem buf size key ds dv fuel (Or.inr ⟨hds, hw⟩) hf
    have hlen : (print_header size ds dv ++
        records_from t mts mem ds (ceil_div size ds) buf 0).length = 4 + 5 * ceil_div size ds := by
      rw [List.length_append, records_from_length]; simp [print_header]
    refine ⟨_, h, ?_⟩
    intro k hk
    have hkw : buf + k * ds < 2 ^ t.bits := by
      have : k * ds ≤ ceil_div size ds * ds := Nat.mul_le_mul_right ds (Nat.le_of_lt hk)
      omega
    obtain ⟨r2, r3⟩ := rows _ h (by have := Nat.zero_le (ceil_div size ds * ds); omega) k
      (by rw [hlen]; omega)
    rw [Nat.mod_eq_of_lt hkw] at r2 r3
    exact ⟨_, _, r2, r3, rfl, rfl, fun hb h64 => hms _ hb _ h64, fun hb h64 => hms _ hb _ h64⟩

/-- Witness for C6 amended: the x86_64 build, a 96-byte map of 48-byte
descriptors at address 4096. -/
theorem print_memory_map_range_witness :
    (4096 < 2 ^ x86_64.bits ∧ 0 < 48 ∧ 4096 + ceil_div 96 48 * 48 < 2 ^ x86_64.bits ∧
      ceil_div 96 48 < 3) ∧
    (print_memory_map x86_64 sample_type_to_str sample_mem 4096 96 0 48 1 3 =
      some (print_header 96 48 1 ++ print_record x86_64 sample_type_to_str 0 sample_desc ++
          print_record x86_64 sample_type_to_str 1 sample_desc)) ∧
    (∃ pe ve,
          (print_header 96 48 1 ++ print_record x86_64 sample_type_to_str 0 sample_desc ++
          print_record x86_64 sample_type_to_str 1 sample_desc)[4 + 5 * 1 + 2]? = some (.Print "      Phys: [0x%016llx - 0x%016llx]\n"
            [.u64 (sample_mem ((4096 + 1 * 48) % 2 ^ x86_64.bits)).PhysicalStart, .u64 pe]) ∧
          (print_header 96 48 1 ++ print_record x86_64 sample_type_to_str 0 sample_desc ++
          print_record x86_64 sample_type_to_str 1 sample_desc)[4 + 5 * 1 + 3]? = some (.Print "      Virt: [0x%016llx - 0x%016llx]"
            [.u64 (sample_mem ((4096 + 1 * 48) % 2 ^ x86_64.bits)).VirtualStart, .u64 ve]) ∧
          pe = ((sample_mem ((4096 + 1 * 48) % 2 ^ x86_64.bits)).PhysicalStart +
            mapping_size x86_64 (sample_mem ((4096 + 1 * 48) % 2 ^ x86_64.bits))) % 2 ^ 64 ∧
          ve = ((sample_mem ((4096 + 1 * 48) % 2 ^ x86_64.bits)).VirtualStart +
            mapping_size x86_64 (sample_mem ((4096 + 1 * 48) % 2 ^ x86_64.bits))) % 2 ^ 64 ∧
          ((sample_mem ((4096 + 1 * 48) % 2 ^ x86_64.bits)).NumberOfPages * x86_64.PAGE_SIZE < 2 ^ x86_64.bits →
            (sample_mem ((4096 + 1 * 48) % 2 ^ x86_64.bits)).PhysicalStart +
              (sample_mem ((4096 + 1 * 48) % 2 ^ x86_64.bits)).NumberOfPages * x86_64.PAGE_SIZE < 2 ^ 64 →
            pe = (sample_mem ((4096 + 1 * 48) % 2 ^ x86_64.bits)).PhysicalStart +
              (sample_mem ((4096 + 1 * 48) % 2 ^ x86_64.bits)).NumberOfPages * x86_64.PAGE_SIZE
              ∧ (sample_mem ((4096 + 1 * 48) % 2 ^ x86_64.bits)).PhysicalStart ≤ pe) ∧
          ((sample_mem ((4096 + 1 * 48) % 2 ^ x86_64.bits)).NumberOfPages * x86_64.PAGE_SIZE < 2 ^ x86_64.bits →
            (sample_mem ((4096 + 1 * 48) % 2 ^ x86_64.bits)).VirtualStart +
              (sample_mem ((4096 + 1 * 48) % 2 ^ x86_64.bits)).NumberOfPages * x86_64.PAGE_SIZE < 2 ^ 64 →
            ve = (sample_mem ((4096 + 1 * 48) % 2 ^ x86_64.bits)).VirtualStart +
              (sample_mem ((4096 + 1 * 48) % 2 ^ x86_64.bits)).NumberOfPages * x86_64.PAGE_SIZE
              ∧ (sample_mem ((4096 + 1 * 48) % 2 ^ x86_64.bits)).VirtualStart ≤ ve)) ∧
    (∃ out, print_memory_map x86_64 sample_type_to_str sample_mem 4096 96 0 48 1 3 = some out ∧
      ∀ k, k < ceil_div 96 48 →
        ∃ pe ve,
          out[4 + 5 * k + 2]? = some (.Print "      Phys: [0x%016llx - 0x%016llx]\n"
            [.u64 (sample_mem (4096 + k * 48)).PhysicalStart, .u64 pe]) ∧
          out[4 + 5 * k + 3]? = some (.Print "      Virt: [0x%016llx - 0x%016llx]"
            [.u64 (sample_mem (4096 + k * 48)).VirtualStart, .u64 ve]) ∧
          pe = ((sample_mem (4096 + k * 48)).PhysicalStart + mapping_size x86_64 (sample_mem (4096 + k * 48))) % 2 ^ 64 ∧
          ve = ((sample_mem (4096 + k * 48)).VirtualStart + mapping_size x86_64 (sample_mem (4096 + k * 48))) % 2 ^ 64 ∧
          ((sample_mem (4096 + k * 48)).NumberOfPages * x86_64.PAGE_SIZE < 2 ^ x86_64.bits →
            (sample_mem (4096 + k * 48)).PhysicalStart + (sample_mem (4096 + k * 48)).NumberOfPages * x86_64.PAGE_SIZE
              < 2 ^ 64 →
            pe = (sample_mem (4096 + k * 48)).PhysicalStart + (sample_mem (4096 + k * 48)).NumberOfPages * x86_64.PAGE_SIZE
              ∧ (sample_mem (4096 + k * 48)).PhysicalStart ≤ pe) ∧
          ((sample_mem (4096 + k * 48)).NumberOfPages * x86_64.PAGE_SIZE < 2 ^ x86_64.bits →
            (sample_mem (4096 + k * 48)).VirtualStart + (sample_mem (4096 + k * 48)).NumberOfPages * x86_64.PAGE_SIZE
              < 2 ^ 64 →
            ve = (sample_mem (4096 + k * 48)).VirtualStart + (sample_mem (4096 + k * 48)).NumberOfPages * x86_64.PAGE_SIZE
              ∧ (sample_mem (4096 + k * 48)).VirtualStart ≤ ve)) ∧
    ((print_memory_map x86_64 sample_type_to_str sample_mem 4096 96 0 48 1 3).bind
        (fun out => out[6]?) =
      some (.Print "      Phys: [0x%016llx - 0x%016llx]\n" [.u64 4096, .u64 8192])) :=
  ⟨by decide, by decide,
   (print_memory_map_range x86_64 sample_type_to_str sample_mem 4096 96 0 48 1 3).1
     (print_header 96 48 1 ++ print_record x86_64 sample_type_to_str 0 sample_desc ++
          print_record x86_64 sample_type_to_str 1 sample_desc) (by decide) (by decide) 1 (by decide),
   (print_memory_map_range x86_64 sample_type_to_str sample_mem 4096 96 0 48 1 3).2
     (by decide) (by decide) (by decide),
   by decide⟩

/-! ## Lemmas on `efi_main` -/

theorem EFIERR_ne_success (t : Target) (a : Nat) : EFIERR t a ≠ EFI_SUCCESS := by
  intro h
  have h1 : (EFIERR t a).testBit (t.bits - 1) = true := by
    simp [EFIERR, Nat.testBit_or, Nat.testBit_two_pow_self]
  rw [h] at h1
  simp [EFI_SUCCESS] at h1

theorem too_small_ne_success (t : Target) : EFI_BUFFER_TOO_SMALL t ≠ EFI_SUCCESS :=
  EFIERR_ne_success t 5

/-- The code at `failed:` when the error-string allocation fails. -/
theorem failed_alloc_fail {σ : Type} (fw : Firmware σ) (image : Nat) (err : EFI_STATUS)
    (size : Nat) (s : σ) (a : EFI_STATUS × Nat × σ)
    (ha : fw.allocate_pool s EfiLoaderData ERROR_STRING_LENGTH = a) (ha1 : a.1 ≠ EFI_SUCCESS) :
    failed fw image err size s =
      ⟨.returned err,
        [.allocate_pool EfiLoaderData ERROR_STRING_LENGTH a.1 a.2.1,
         .Print "Couldn't allocate pages for error string\n" []],
        a.2.2⟩ := by
  subst ha
  unfold failed
  simp only [] 
  rw [if_pos ha1]

/-- The code at `failed:` when the error-string allocation succeeds. -/
theorem failed_alloc_ok {σ : Type} (fw : Firmware σ) (image : Nat) (err : EFI_STATUS)
    (size : Nat) (s : σ) (a : EFI_STATUS × Nat × σ) (x : Option EFI_STATUS × σ)
    (ha : fw.allocate_pool s EfiLoaderData ERROR_STRING_LENGTH = a) (ha1 : a.1 = EFI_SUCCESS)
    (hx : fw.exit (fw.StatusToString a.2.2 a.2.1 err) image err size a.2.1 = x) :
    failed fw image err size s =
      ⟨exit_outcome err x.1,
        [.allocate_pool EfiLoaderData ERROR_STRING_LENGTH EFI_SUCCESS a.2.1,
         .StatusToString a.2.1 err,
         .Print ": %s\n" [.wbuf a.2.1],
         .exit image err size a.2.1 x.1],
        x.2⟩ := by
  subst ha hx
  unfold failed
  simp only []
  rw [if_neg (by simpa using ha1), ha1]

/-- The two ways through the code at `failed:`. -/
theorem failed_cases {σ : Type} (fw : Firmware σ) (image : Nat) (err : EFI_STATUS) (size : Nat)
    (s : σ) :
    (∃ e eb, e ≠ EFI_SUCCESS ∧
      (failed fw image err size s).trace =
        [.allocate_pool EfiLoaderData ERROR_STRING_LENGTH e eb,
         .Print "Couldn't allocate pages for error string\n" []] ∧
      (failed fw image err size s).outcome = .returned err) ∨
    (∃ eb ret,
      (failed fw image err size s).trace =
        [.allocate_pool EfiLoaderData ERROR_STRING_LENGTH EFI_SUCCESS eb,
         .StatusToString eb err,
         .Print ": %s\n" [.wbuf eb],
         .exit image err size eb ret] ∧
      (failed fw image err size s).outcome = exit_outcome err ret) := by
  by_cases h : (fw.allocate_pool s EfiLoaderData ERROR_STRING_LENGTH).1 = EFI_SUCCESS
  · right
    rw [failed_alloc_ok fw image err size s _ _ rfl h rfl]
    exact ⟨_, _, rfl, rfl⟩
  · left
    rw [failed_alloc_fail fw image err size s _ rfl h]
    exact ⟨_, _, h, rfl, rfl⟩

theorem failed_no_get_memory_map {σ : Type} (fw : Firmware σ) (image : Nat) (err : EFI_STATUS)
    (size : Nat) (s : σ) (i sz b : Nat) (S : EFI_STATUS) (R k ds dv : Nat) :
    (failed fw image err size s).trace[i]? ≠ some (.get_memory_map sz b S R k ds dv) := by
  intro h
  have hm := List.getElem?_mem h
  rcases failed_cases fw image err size s with ⟨e, eb, _, ht, _⟩ | ⟨eb, ret, ht, _⟩ <;>
    rw [ht] at hm <;> simp at hm

/-- A pass through `get_map:` in which the map-buffer allocation fails. -/
theorem get_map_alloc_fail {σ : Type} (t : Target) (fw : Firmware σ) (image pfuel fuel : Nat)
    (size : Nat) (s : σ) (a : EFI_STATUS × Nat × σ)
    (ha : fw.allocate_pool s EfiLoaderData ((size + t.sizeof_desc) % 2 ^ t.bits) = a)
    (ha1 : a.1 ≠ EFI_SUCCESS) :
    get_map t fw image pfuel (fuel + 1) size s =
      (failed fw image a.1 ((size + t.sizeof_desc) % 2 ^ t.bits) a.2.2).after
        [.allocate_pool EfiLoaderData ((size + t.sizeof_desc) % 2 ^ t.bits) a.1 a.2.1,
         .Print "Failed to allocate pool for memory map" []] := by
  subst ha
  rw [get_map]
  simp only []
  rw [if_pos ha1]

/-- A pass through `get_map:` in which `get_memory_map` reports a buffer that
is too small. -/
theorem get_map_too_small {σ : Type} (t : Target) (fw : Firmware σ) (image pfuel fuel : Nat)
    (size : Nat) (s : σ) (a : EFI_STATUS × Nat × σ) (r : GetMapResult σ)
    (ha : fw.allocate_pool s EfiLoaderData ((size + t.sizeof_desc) % 2 ^ t.bits) = a)
    (ha1 : a.1 = EFI_SUCCESS)
    (hr : fw.get_memory_map a.2.2 ((size + t.sizeof_desc) % 2 ^ t.bits) a.2.1 = r)
    (hr1 : r.err = EFI_BUFFER_TOO_SMALL t) :
    get_map t fw image pfuel (fuel + 1) size s =
      (get_map t fw image pfuel fuel r.size (fw.free_pool r.state a.2.1).2).after
        [.allocate_pool EfiLoaderData ((size + t.sizeof_desc) % 2 ^ t.bits) EFI_SUCCESS a.2.1,
         .get_memory_map ((size + t.sizeof_desc) % 2 ^ t.bits) a.2.1 (EFI_BUFFER_TOO_SMALL t)
           r.size r.key r.desc_size r.desc_version,
         .free_pool a.2.1,
         .Print "Failed to get map, retry size=%d\n" [.uintn r.size]] := by
  subst ha hr
  rw [get_map]
  simp only []
  rw [if_neg (by simpa using ha1), if_pos (by rw [hr1]; exact too_small_ne_success t),
    if_pos hr1, ha1, hr1]

/-- A pass through `get_map:` in which `get_memory_map` fails with a status
other than `EFI_BUFFER_TOO_SMALL`. -/
theorem get_map_other_error {σ : Type} (t : Target) (fw : Firmware σ) (image pfuel fuel : Nat)
    (size : Nat) (s : σ) (a : EFI_STATUS × Nat × σ) (r : GetMapResult σ)
    (ha : fw.allocate_pool s EfiLoaderData ((size + t.sizeof_desc) % 2 ^ t.bits) = a)
    (ha1 : a.1 = EFI_SUCCESS)
    (hr : fw.get_memory_map a.2.2 ((size + t.sizeof_desc) % 2 ^ t.bits) a.2.1 = r)
    (hr1 : r.err ≠ EFI_SUCCESS) (hr2 : r.err ≠ EFI_BUFFER_TOO_SMALL t) :
    get_map t fw image pfuel (fuel + 1) size s =
      (failed fw image r.err r.size r.state).after
        [.allocate_pool EfiLoaderData ((size + t.sizeof_desc) % 2 ^ t.bits) EFI_SUCCESS a.2.1,
         .get_memory_map ((size + t.sizeof_desc) % 2 ^ t.bits) a.2.1 r.err
           r.size r.key r.desc_size r.desc_version,
         .Print "Failed to get memory map" []] := by
  subst ha hr
  rw [get_map]
  simp only []
  rw [if_neg (by simpa using ha1), if_pos hr1, if_neg hr2, ha1]

/-- A pass through `get_map:` in which `get_memory_map` succeeds and
`print_memory_map` returns. -/
theorem get_map_success {σ : Type} (t : Target) (fw : Firmware σ) (image pfuel fuel : Nat)
    (size : Nat) (s : σ) (a : EFI_STATUS × Nat × σ) (r : GetMapResult σ) (out : List Event)
    (ha : fw.allocate_pool s EfiLoaderData ((size + t.sizeof_desc) % 2 ^ t.bits) = a)
    (ha1 : a.1 = EFI_SUCCESS)
    (hr : fw.get_memory_map a.2.2 ((size + t.sizeof_desc) % 2 ^ t.bits) a.2.1 = r)
    (hr1 : r.err = EFI_SUCCESS)
    (hp : print_memory_map t fw.memory_type_to_str (fw.mem r.state) a.2.1 r.size r.key
      r.desc_size r.desc_version pfuel = some out) :
    get_map t fw image pfuel (fuel + 1) size s =
      ⟨.returned EFI_SUCCESS,
        .allocate_pool EfiLoaderData ((size + t.sizeof_desc) % 2 ^ t.bits) EFI_SUCCESS a.2.1 ::
        .get_memory_map ((size + t.sizeof_desc) % 2 ^ t.bits) a.2.1 EFI_SUCCESS
           r.size r.key r.desc_size r.desc_version :: out,
        r.state⟩ := by
  subst ha hr
  rw [get_map]
  simp only []
  rw [if_neg (by simpa using ha1), if_neg (by simpa using hr1), hp, ha1, hr1]

/-- A pass through `get_map:` in which `get_memory_map` succeeds and the loop of
`print_memory_map` exceeds its bound. -/
theorem get_map_success_none {σ : Type} (t : Target) (fw : Firmware σ)
    (image pfuel fuel : Nat)
    (size : Nat) (s : σ) (a : EFI_STATUS × Nat × σ) (r : GetMapResult σ)
    (ha : fw.allocate_pool s EfiLoaderData ((size + t.sizeof_desc) % 2 ^ t.bits) = a)
    (ha1 : a.1 = EFI_SUCCESS)
    (hr : fw.get_memory_map a.2.2 ((size + t.sizeof_desc) % 2 ^ t.bits) a.2.1 = r)
    (hr1 : r.err = EFI_SUCCESS)
    (hp : print_memory_map t fw.memory_type_to_str (fw.mem r.state) a.2.1 r.size r.key
      r.desc_size r.desc_version pfuel = none) :
    get_map t fw image pfuel (fuel + 1) size s =
      ⟨.out_of_fuel,
        [.allocate_pool EfiLoaderData ((size + t.sizeof_desc) % 2 ^ t.bits) EFI_SUCCESS a.2.1,
         .get_memory_map ((size + t.sizeof_desc) % 2 ^ t.bits) a.2.1 EFI_SUCCESS
           r.size r.key r.desc_size r.desc_version],
        r.state⟩ := by
  subst ha hr
  rw [get_map]
  simp only []
  rw [if_neg (by simpa using ha1), if_neg (by simpa using hr1), hp, ha1, hr1]

/-- What follows a `get_memory_map` call in the code from `get_map:` on: the
call comes right after the successful allocation of its buffer, and the rest of
the run is fixed by the status it returned. -/
theorem get_map_after_call {σ : Type} (t : Target) (fw : Firmware σ) (image pfuel : Nat) :
    ∀ (fuel size : Nat) (s : σ) (i sz b : Nat) (S : EFI_STATUS) (R k ds dv : Nat),
      (get_map t fw image pfuel fuel size s).trace[i]? =
        some (.get_memory_map sz b S R k ds dv) →
      (∃ j, i = j + 1 ∧ (get_map t fw image pfuel fuel size s).trace[j]? =
        some (.allocate_pool EfiLoaderData sz EFI_SUCCESS b)) ∧
      ((S = EFI_BUFFER_TOO_SMALL t ∧ ∃ m s1, i = 4 * m + 1 ∧ m < fuel ∧
          (get_map t fw image pfuel fuel size s).trace.drop (i + 1) =
            .free_pool b :: .Print "Failed to get map, retry size=%d\n" [.uintn R] ::
              (get_map t fw image pfuel (fuel - (m + 1)) R s1).trace ∧
          (get_map t fw image pfuel fuel size s).outcome =
            (get_map t fw image pfuel (fuel - (m + 1)) R s1).outcome) ∨
       (S ≠ EFI_SUCCESS ∧ S ≠ EFI_BUFFER_TOO_SMALL t ∧ ∃ s1,
          (get_map t fw image pfuel fuel size s).trace.drop (i + 1) =
            .Print "Failed to get memory map" [] :: (failed fw image S R s1).trace ∧
          (get_map t fw image pfuel fuel size s).outcome = (failed fw image S R s1).outcome) ∨
       (S = EFI_SUCCESS ∧ ∃ s1,
          (∃ out, print_memory_map t fw.memory_type_to_str (fw.mem s1) b R k ds dv pfuel
              = some out ∧
            (get_map t fw image pfuel fuel size s).trace.drop (i + 1) = out ∧
            (get_map t fw image pfuel fuel size s).outcome = .returned EFI_SUCCESS) ∨
          (print_memory_map t fw.memory_type_to_str (fw.mem s1) b R k ds dv pfuel = none ∧
            (get_map t fw image pfuel fuel size s).trace.drop (i + 1) = [] ∧
            (get_map t fw image pfuel fuel size s).outcome = .out_of_fuel))) := by
  intro fuel
  induction fuel with
  | zero => intro size s i sz b S R k ds dv h; simp [get_map] at h
  | succ fuel ih =>
    intro size s i sz b S R k ds dv h
    obtain ⟨a, ha⟩ : ∃ a, fw.allocate_pool s EfiLoaderData
      ((size + t.sizeof_desc) % 2 ^ t.bits) = a := ⟨_, rfl⟩
    by_cases ha1 : a.1 = EFI_SUCCESS
    · obtain ⟨r, hr⟩ : ∃ r, fw.get_memory_map a.2.2
        ((size + t.sizeof_desc) % 2 ^ t.bits) a.2.1 = r := ⟨_, rfl⟩
      by_cases hr1 : r.err = EFI_SUCCESS
      · cases hp : print_memory_map t fw.memory_type_to_str (fw.mem r.state) a.2.1 r.size r.key
          r.desc_size r.desc_version pfuel with
        | none =>
          rw [get_map_success_none t fw image pfuel fuel size s a r ha ha1 hr hr1 hp] at h ⊢
          match i, h with
          | 0, h => simp at h
          | 1, h =>
            simp at h
            obtain ⟨rfl, rfl, rfl, rfl, rfl, rfl, rfl⟩ := h
            exact ⟨⟨0, rfl, by simp⟩, Or.inr (Or.inr ⟨rfl, _, Or.inr ⟨hp, by simp, rfl⟩⟩)⟩
          | j + 2, h => simp at h
        | some out =>
          rw [get_map_success t fw image pfuel fuel size s a r out ha ha1 hr hr1 hp] at h ⊢
          match i, h with
          | 0, h => simp at h
          | 1, h =>
            simp at h
            obtain ⟨rfl, rfl, rfl, rfl, rfl, rfl, rfl⟩ := h
            exact ⟨⟨0, rfl, by simp⟩, Or.inr (Or.inr ⟨rfl, _, Or.inl ⟨out, hp, by simp, rfl⟩⟩)⟩
          | j + 2, h =>
            simp at h
            obtain ⟨fmt, args, he⟩ := print_memory_map_all_print _ _ _ _ _ _ _ _ _ _ hp _
              (List.getElem?_mem h)
            simp at he
      · by_cases hr2 : r.err = EFI_BUFFER_TOO_SMALL t
        · rw [get_map_too_small t fw image pfuel fuel size s a r ha ha1 hr hr2] at h ⊢
          simp only [Run.after] at h ⊢
          match i, h with
          | 0, h => simp at h
          | 1, h =>
            simp at h
            obtain ⟨rfl, rfl, rfl, rfl, rfl, rfl, rfl⟩ := h
            exact ⟨⟨0, rfl, by simp⟩,
              Or.inl ⟨rfl, 0, _, rfl, Nat.succ_pos _, by simp, rfl⟩⟩
          | 2, h => simp at h
          | 3, h => simp at h
          | j + 4, h =>
            simp at h
            obtain ⟨⟨j0, hj0, hal⟩, hrest⟩ := ih _ _ _ _ _ _ _ _ _ _ h
            refine ⟨⟨j0 + 4, by omega, by simpa using hal⟩, ?_⟩
            rcases hrest with ⟨hS, m, s1, hm, hf1, hd, ho⟩ | ⟨h1, h2, s1, hd, ho⟩ |
              ⟨hS, s1, ⟨out, hp, hd, ho⟩ | ⟨hp, hd, ho⟩⟩
            · have e : fuel + 1 - (m + 1 + 1) = fuel - (m + 1) := by omega
              exact Or.inl ⟨hS, m + 1, s1, by omega, by omega,
                by rw [e]; simpa using hd, by rw [e]; exact ho⟩
            · exact Or.inr (Or.inl ⟨h1, h2, s1, by simpa using hd, ho⟩)
            · exact Or.inr (Or.inr ⟨hS, s1, Or.inl ⟨out, hp, by simpa using hd, ho⟩⟩)
            · exact Or.inr (Or.inr ⟨hS, s1, Or.inr ⟨hp, by simpa using hd, ho⟩⟩)
        · rw [get_map_other_error t fw image pfuel fuel size s a r ha ha1 hr hr1 hr2] at h ⊢
          simp only [Run.after] at h ⊢
          match i, h with
          | 0, h => simp at h
          | 1, h =>
            simp at h
            obtain ⟨rfl, rfl, rfl, rfl, rfl, rfl, rfl⟩ := h
            exact ⟨⟨0, rfl, by simp⟩, Or.inr (Or.inl ⟨hr1, hr2, _, by simp, rfl⟩)⟩
          | 2, h => simp at h
          | j + 3, h =>
            simp at h
            exact absurd h (failed_no_get_memory_map _ _ _ _ _ _ _ _ _ _ _ _ _)
    · rw [get_map_alloc_fail t fw image pfuel fuel size s a ha ha1] at h ⊢
      simp only [Run.after] at h ⊢
      match i, h with
      | 0, h => simp at h
      | 1, h => simp at h
      | j + 2, h =>
        simp at h
        exact absurd h (failed_no_get_memory_map _ _ _ _ _ _ _ _ _ _ _ _ _)

/-- The first two events of a pass through `get_map:`: the allocation request
for the padded size, then either the allocation-failure message or the
`get_memory_map` call with the same size and the buffer just allocated. -/
theorem get_map_first_events {σ : Type} (t : Target) (fw : Firmware σ)
    (image pfuel fuel size : Nat) (s : σ) :
    ∃ e b, (get_map t fw image pfuel (fuel + 1) size s).trace[0]? =
        some (.allocate_pool EfiLoaderData ((size + t.sizeof_desc) % 2 ^ t.bits) e b) ∧
      ((e ≠ EFI_SUCCESS ∧ (get_map t fw image pfuel (fuel + 1) size s).trace[1]? =
          some (.Print "Failed to allocate pool for memory map" [])) ∨
       (e = EFI_SUCCESS ∧ ∃ S R k ds dv, (get_map t fw image pfuel (fuel + 1) size s).trace[1]? =
          some (.get_memory_map ((size + t.sizeof_desc) % 2 ^ t.bits) b S R k ds dv))) := by
  obtain ⟨a, ha⟩ : ∃ a, fw.allocate_pool s EfiLoaderData
    ((size + t.sizeof_desc) % 2 ^ t.bits) = a := ⟨_, rfl⟩
  by_cases ha1 : a.1 = EFI_SUCCESS
  · obtain ⟨r, hr⟩ : ∃ r, fw.get_memory_map a.2.2
      ((size + t.sizeof_desc) % 2 ^ t.bits) a.2.1 = r := ⟨_, rfl⟩
    refine ⟨EFI_SUCCESS, a.2.1, ?_, Or.inr ⟨rfl, r.err, r.size, r.key, r.desc_size,
      r.desc_version, ?_⟩⟩
    all_goals
      by_cases hr1 : r.err = EFI_SUCCESS
      · cases hp : print_memory_map t fw.memory_type_to_str (fw.mem r.state) a.2.1 r.size r.key
          r.desc_size r.desc_version pfuel with
        | none =>
          rw [get_map_success_none t fw image pfuel fuel size s a r ha ha1 hr hr1 hp]
          simp [hr1]
        | some out =>
          rw [get_map_success t fw image pfuel fuel size s a r out ha ha1 hr hr1 hp]
          simp [hr1]
      · by_cases hr2 : r.err = EFI_BUFFER_TOO_SMALL t
        · rw [get_map_too_small t fw image pfuel fuel size s a r ha ha1 hr hr2]
          simp [Run.after, hr2]
        · rw [get_map_other_error t fw image pfuel fuel size s a r ha ha1 hr hr1 hr2]
          simp [Run.after]
  · refine ⟨a.1, a.2.1, ?_, Or.inl ⟨ha1, ?_⟩⟩
    all_goals
      rw [get_map_alloc_fail t fw image pfuel fuel size s a ha ha1]
      simp [Run.after]

/-- The run of `efi_main` when `register_table` does not return `TRUE`. -/
theorem efi_main_register_fail {σ : Type} (t : Target) (fw : Firmware σ)
    (fuel pfuel image sys_table : Nat) (s : σ)
    (h : (fw.register_table (fw.InitializeLib s image sys_table) sys_table).1 ≠ true) :
    efi_main t fw fuel pfuel image sys_table s =
      ⟨.returned (EFI_LOAD_ERROR t),
        [.InitializeLib image sys_table, .register_table sys_table false],
        (fw.register_table (fw.InitializeLib s image sys_table) sys_table).2⟩ := by
  unfold efi_main
  simp only []
  rw [if_pos h]
  simp at h
  rw [h]

/-- The run of `efi_main` when `register_table` returns `TRUE`: the banner,
then the code from `get_map:` on with `size = sizeof(*map_buf) * 31`. -/
theorem efi_main_register_ok {σ : Type} (t : Target) (fw : Firmware σ)
    (fuel pfuel image sys_table : Nat) (s : σ)
    (h : (fw.register_table (fw.InitializeLib s image sys_table) sys_table).1 = true) :
    efi_main t fw fuel pfuel image sys_table s =
      (get_map t fw image pfuel fuel (t.sizeof_desc * 31 % 2 ^ t.bits)
        (fw.register_table (fw.InitializeLib s image sys_table) sys_table).2).after
      [.InitializeLib image sys_table, .register_table sys_table true,
       .Print "efilinux loader\n" []] := by
  unfold efi_main
  simp only []
  rw [if_neg (by simp [h]), h]

/-- What follows a `get_memory_map` call in a run of `efi_main`. -/
theorem efi_main_after_call {σ : Type} (t : Target) (fw : Firmware σ)
    (fuel pfuel image sys_table : Nat) (s : σ) (i sz b : Nat) (S : EFI_STATUS) (R k ds dv : Nat)
    (h : (efi_main t fw fuel pfuel image sys_table s).trace[i]? =
      some (.get_memory_map sz b S R k ds dv)) :
    (∃ j, i = j + 1 ∧ (efi_main t fw fuel pfuel image sys_table s).trace[j]? =
      some (.allocate_pool EfiLoaderData sz EFI_SUCCESS b)) ∧
    ((S = EFI_BUFFER_TOO_SMALL t ∧ ∃ m s1, i = 4 * m + 4 ∧ m < fuel ∧
        (efi_main t fw fuel pfuel image sys_table s).trace.drop (i + 1) =
          .free_pool b :: .Print "Failed to get map, retry size=%d\n" [.uintn R] ::
            (get_map t fw image pfuel (fuel - (m + 1)) R s1).trace ∧
        (efi_main t fw fuel pfuel image sys_table s).outcome =
          (get_map t fw image pfuel (fuel - (m + 1)) R s1).outcome) ∨
     (S ≠ EFI_SUCCESS ∧ S ≠ EFI_BUFFER_TOO_SMALL t ∧ ∃ s1,
        (efi_main t fw fuel pfuel image sys_table s).trace.drop (i + 1) =
          .Print "Failed to get memory map" [] :: (failed fw image S R s1).trace ∧
        (efi_main t fw fuel pfuel image sys_table s).outcome =
          (failed fw image S R s1).outcome) ∨
     (S = EFI_SUCCESS ∧ ∃ s1,
        (∃ out, print_memory_map t fw.memory_type_to_str (fw.mem s1) b R k ds dv pfuel
            = some out ∧
          (efi_main t fw fuel pfuel image sys_table s).trace.drop (i + 1) = out ∧
          (efi_main t fw fuel pfuel image sys_table s).outcome = .returned EFI_SUCCESS) ∨
        (print_memory_map t fw.memory_type_to_str (fw.mem s1) b R k ds dv pfuel = none ∧
          (efi_main t fw fuel pfuel image sys_table s).trace.drop (i + 1) = [] ∧
          (efi_main t fw fuel pfuel image sys_table s).outcome = .out_of_fuel))) := by
  by_cases hreg : (fw.register_table (fw.InitializeLib s image sys_table) sys_table).1 = true
  · rw [efi_main_register_ok t fw fuel pfuel image sys_table s hreg] at h ⊢
    simp only [Run.after] at h ⊢
    match i, h with
    | 0, h => simp at h
    | 1, h => simp at h
    | 2, h => simp at h
    | j + 3, h =>
      simp at h
      obtain ⟨⟨j0, hj0, hal⟩, hrest⟩ := get_map_after_call t fw image pfuel _ _ _ _ _ _ _ _ _ _ _ h
      refine ⟨⟨j0 + 3, by omega, by simpa using hal⟩, ?_⟩
      rcases hrest with ⟨hS, m, s1, hm, hf1, hd, ho⟩ | ⟨h1, h2, s1, hd, ho⟩ |
        ⟨hS, s1, ⟨out, hp, hd, ho⟩ | ⟨hp, hd, ho⟩⟩
      · exact Or.inl ⟨hS, m, s1, by omega, hf1, by simpa using hd, ho⟩
      · exact Or.inr (Or.inl ⟨h1, h2, s1, by simpa using hd, ho⟩)
      · exact Or.inr (Or.inr ⟨hS, s1, Or.inl ⟨out, hp, by simpa using hd, ho⟩⟩)
      · exact Or.inr (Or.inr ⟨hS, s1, Or.inr ⟨hp, by simpa using hd, ho⟩⟩)
  · rw [efi_main_register_fail t fw fuel pfuel image sys_table s hreg] at h
    match i, h with
    | 0, h => simp at h
    | 1, h => simp at h
    | j + 2, h => simp at h

/-- After a `get_memory_map` call that reported `EFI_BUFFER_TOO_SMALL`, made in
pass `m + 1` through `get_map:`: the buffer is freed, the retry notice printed,
and the run goes on as the code from `get_map:` entered with the size written
back and the passes that are left. -/
theorem efi_main_after_too_small_pass {σ : Type} (t : Target) (fw : Firmware σ)
    (fuel pfuel image sys_table : Nat) (s : σ) (i sz b : Nat) (R k ds dv : Nat)
    (h : (efi_main t fw fuel pfuel image sys_table s).trace[i]? =
      some (.get_memory_map sz b (EFI_BUFFER_TOO_SMALL t) R k ds dv)) :
    ∃ m s1, i = 4 * m + 4 ∧ m < fuel ∧
      (efi_main t fw fuel pfuel image sys_table s).trace.drop (i + 1) =
        .free_pool b :: .Print "Failed to get map, retry size=%d\n" [.uintn R] ::
          (get_map t fw image pfuel (fuel - (m + 1)) R s1).trace ∧
      (efi_main t fw fuel pfuel image sys_table s).outcome =
        (get_map t fw image pfuel (fuel - (m + 1)) R s1).outcome := by
  rcases (efi_main_after_call t fw fuel pfuel image sys_table s i sz b _ R k ds dv h).2 with
    ⟨_, h1⟩ | ⟨_, h2, _⟩ | ⟨h3, _⟩
  · exact h1
  · exact absurd rfl h2
  · exact absurd h3 (too_small_ne_success t)

/-- After a `get_memory_map` call that reported `EFI_BUFFER_TOO_SMALL`: the
buffer is freed, the retry notice printed, and the run goes on as the code from
`get_map:` entered with the size written back. -/
theorem efi_main_after_too_small {σ : Type} (t : Target) (fw : Firmware σ)
    (fuel pfuel image sys_table : Nat) (s : σ) (i sz b : Nat) (R k ds dv : Nat)
    (h : (efi_main t fw fuel pfuel image sys_table s).trace[i]? =
      some (.get_memory_map sz b (EFI_BUFFER_TOO_SMALL t) R k ds dv)) :
    ∃ fuel1 s1, fuel1 < fuel ∧
      (efi_main t fw fuel pfuel image sys_table s).trace.drop (i + 1) =
        .free_pool b :: .Print "Failed to get map, retry size=%d\n" [.uintn R] ::
          (get_map t fw image pfuel fuel1 R s1).trace ∧
      (efi_main t fw fuel pfuel image sys_table s).outcome =
        (get_map t fw image pfuel fuel1 R s1).outcome := by
  obtain ⟨m, s1, _, hm, hd, ho⟩ :=
    efi_main_after_too_small_pass t fw fuel pfuel image sys_table s i sz b R k ds dv h
  exact ⟨fuel - (m + 1), s1, by omega, hd, ho⟩

/-! ## Claims on `efi_main` -/

/-- C2, as stated, fails: on the x86_64 build, when the first `get_memory_map`
call reports `EFI_BUFFER_TOO_SMALL` with required size `2 ^ 64 - 40`, the next
`allocate_pool` call asks for 0 bytes, which is not greater than the required
size. -/
theorem efi_main_retry_request_counterexample :
    (efi_main x86_64 (scripted x86_64 sample_mem none) 2 3 1 2 wrap_script).trace[4]? =
        some (.get_memory_map 1280 4096 (EFI_BUFFER_TOO_SMALL x86_64)
          18446744073709551576 0 48 1) ∧
      (efi_main x86_64 (scripted x86_64 sample_mem none) 2 3 1 2 wrap_script).trace[7]? =
        some (.allocate_pool EfiLoaderData 0 EFI_SUCCESS 8192) ∧
      (efi_main x86_64 (scripted x86_64 sample_mem none) 2 3 1 2 wrap_script).trace[8]? =
        some (.get_memory_map 0 8192 EFI_SUCCESS 96 7 48 1) ∧
      ¬ (18446744073709551576 < 0) := by
  decide

/-- C2, amended: in every run of `efi_main`, after a `get_memory_map` call that
returns `EFI_BUFFER_TOO_SMALL` and writes back the required size `R`, the next
`allocate_pool` call (three events later, after the `free_pool` and the retry
notice; it is made unless the bound on retries is used up) asks for `(R +
sizeof(EFI_MEMORY_DESCRIPTOR)) mod 2 ^ bits` bytes, the `get_memory_map` call
that follows it is given the same size, and that size is strictly greater than
`R` whenever `R + sizeof(EFI_MEMORY_DESCRIPTOR) < 2 ^ bits`. -/
theorem efi_main_retry_request {σ : Type} (t : Target) (fw : Firmware σ)
    (fuel pfuel image sys_table : Nat) (s : σ) (i sz b : Nat) (R k ds dv : Nat)
    (h : (efi_main t fw fuel pfuel image sys_table s).trace[i]? =
      some (.get_memory_map sz b (EFI_BUFFER_TOO_SMALL t) R k ds dv)) :
    (∀ e, (efi_main t fw fuel pfuel image sys_table s).trace[i + 3]? = some e →
      ∃ err b1, e = .allocate_pool EfiLoaderData ((R + t.sizeof_desc) % 2 ^ t.bits) err b1) ∧
    (∀ e, (efi_main t fw fuel pfuel image sys_table s).trace[i + 4]? = some e →
      e = .Print "Failed to allocate pool for memory map" [] ∨
      ∃ b1 S R1 k1 ds1 dv1,
        e = .get_memory_map ((R + t.sizeof_desc) % 2 ^ t.bits) b1 S R1 k1 ds1 dv1) ∧
    ((efi_main t fw fuel pfuel image sys_table s).outcome ≠ .out_of_fuel →
      ∃ err b1, (efi_main t fw fuel pfuel image sys_table s).trace[i + 3]? =
        some (.allocate_pool EfiLoaderData ((R + t.sizeof_desc) % 2 ^ t.bits) err b1)) ∧
    (0 < t.sizeof_desc → R + t.sizeof_desc < 2 ^ t.bits →
      R < (R + t.sizeof_desc) % 2 ^ t.bits) := by
  obtain ⟨f1, s1, _, hd, ho⟩ :=
    efi_main_after_too_small t fw fuel pfuel image sys_table s i sz b R k ds dv h
  have h3 : (efi_main t fw fuel pfuel image sys_table s).trace[i + 3]? =
      (get_map t fw image pfuel f1 R s1).trace[0]? := by
    have := List.getElem?_drop (efi_main t fw fuel pfuel image sys_table s).trace (i + 1) 2
    rw [hd] at this
    simpa using this.symm
  have h4 : (efi_main t fw fuel pfuel image sys_table s).trace[i + 4]? =
      (get_map t fw image pfuel f1 R s1).trace[1]? := by
    have := List.getElem?_drop (efi_main t fw fuel pfuel image sys_table s).trace (i + 1) 3
    rw [hd] at this
    simpa using this.symm
  refine ⟨?_, ?_, ?_, ?_⟩
  · intro e he
    cases f1 with
    | zero => rw [h3] at he; simp [get_map] at he
    | succ f =>
      obtain ⟨err, b1, h0, _⟩ := get_map_first_events t fw image pfuel f R s1
      rw [h3, h0] at he
      exact ⟨err, b1, (Option.some.inj he).symm⟩
  · intro e he
    cases f1 with
    | zero => rw [h4] at he; simp [get_map] at he
    | succ f =>
      obtain ⟨err, b1, _, h1⟩ := get_map_first_events t fw image pfuel f R s1
      rcases h1 with ⟨_, h1⟩ | ⟨_, S, R1, k1, ds1, dv1, h1⟩
      · rw [h4, h1] at he
        exact Or.inl (Option.some.inj he).symm
      · rw [h4, h1] at he
        exact Or.inr ⟨b1, S, R1, k1, ds1, dv1, (Option.some.inj he).symm⟩
  · intro hne
    cases f1 with
    | zero => rw [ho] at hne; exact absurd rfl hne
    | succ f =>
      obtain ⟨err, b1, h0, _⟩ := get_map_first_events t fw image pfuel f R s1
      exact ⟨err, b1, by rw [h3, h0]⟩
  · intro hpos hlt
    rw [Nat.mod_eq_of_lt hlt]
    omega

/-- Witness for C2 amended: the x86_64 build, first `get_memory_map` call
reporting that 2048 bytes are required. -/
theorem efi_main_retry_request_witness :
    ((efi_main x86_64 (scripted x86_64 sample_mem none) 2 3 1 2 retry_script).trace[4]? =
      some (.get_memory_map 1280 4096 (EFI_BUFFER_TOO_SMALL x86_64) 2048 0 48 1)) ∧
    ((∀ e, (efi_main x86_64 (scripted x86_64 sample_mem none) 2 3 1 2 retry_script).trace[4 + 3]? = some e →
      ∃ err b1, e = .allocate_pool EfiLoaderData ((2048 + x86_64.sizeof_desc) % 2 ^ x86_64.bits) err b1) ∧
    (∀ e, (efi_main x86_64 (scripted x86_64 sample_mem none) 2 3 1 2 retry_script).trace[4 + 4]? = some e →
      e = .Print "Failed to allocate pool for memory map" [] ∨
      ∃ b1 S R1 k1 ds1 dv1,
        e = .get_memory_map ((2048 + x86_64.sizeof_desc) % 2 ^ x86_64.bits) b1 S R1 k1 ds1 dv1) ∧
    ((efi_main x86_64 (scripted x86_64 sample_mem none) 2 3 1 2 retry_script).outcome ≠ .out_of_fuel →
      ∃ err b1, (efi_main x86_64 (scripted x86_64 sample_mem none) 2 3 1 2 retry_script).trace[4 + 3]? =
        some (.allocate_pool EfiLoaderData ((2048 + x86_64.sizeof_desc) % 2 ^ x86_64.bits) err b1)) ∧
    (0 < x86_64.sizeof_desc → 2048 + x86_64.sizeof_desc < 2 ^ x86_64.bits →
      2048 < (2048 + x86_64.sizeof_desc) % 2 ^ x86_64.bits)) ∧
    ((efi_main x86_64 (scripted x86_64 sample_mem none) 2 3 1 2 retry_script).trace[7]? =
      some (.allocate_pool EfiLoaderData 2088 EFI_SUCCESS 8192)) :=
  ⟨by decide,
   efi_main_retry_request x86_64 (scripted x86_64 sample_mem none) 2 3 1 2
     retry_script 4 1280 4096 2048 0 48 1 (by decide),
   by decide⟩

/-- C3: in every run of `efi_main`, what follows a `get_memory_map` call is
fixed by the status `S` it returned.  A later `get_memory_map` call is made
only if `S` is `EFI_BUFFER_TOO_SMALL`.  In that case the buffer is freed, the
retry notice printed, and the next event is the `allocate_pool` call of another
attempt, followed when that allocation succeeds by the `get_memory_map` call
on the new buffer: the call was made in pass `m + 1` through `get_map:` (it is
event `4 * m + 4`), and the attempt is made whenever the bound on passes allows
pass `m + 2`, and whenever the run does not end by using up that bound.  For every `S`
other than `EFI_SUCCESS` and `EFI_BUFFER_TOO_SMALL` the rest of the run is the
message "Failed to get memory map" followed by the code at `failed:` with `err
= S`: the error-string allocation and then either the fallback `return err` or
`StatusToString` on `S`, the print of the string and `exit` with `S`; no map
allocation, no `get_memory_map` call and no output of `print_memory_map`.
After `EFI_SUCCESS` every later event is a `Print`. -/
theorem efi_main_retry_iff_too_small {σ : Type} (t : Target) (fw : Firmware σ)
    (fuel pfuel image sys_table : Nat) (s : σ) (i sz b : Nat) (S : EFI_STATUS) (R k ds dv : Nat)
    (h : (efi_main t fw fuel pfuel image sys_table s).trace[i]? =
      some (.get_memory_map sz b S R k ds dv)) :
    (∀ j sz1 b1 S1 R1 k1 ds1 dv1, i < j →
      (efi_main t fw fuel pfuel image sys_table s).trace[j]? =
        some (.get_memory_map sz1 b1 S1 R1 k1 ds1 dv1) → S = EFI_BUFFER_TOO_SMALL t) ∧
    (S = EFI_BUFFER_TOO_SMALL t →
      (efi_main t fw fuel pfuel image sys_table s).trace[i + 1]? = some (.free_pool b) ∧
      (efi_main t fw fuel pfuel image sys_table s).trace[i + 2]? =
        some (.Print "Failed to get map, retry size=%d\n" [.uintn R]) ∧
      (∃ m, i = 4 * m + 4 ∧ m < fuel ∧
        (m + 1 < fuel →
          ∃ err b1, (efi_main t fw fuel pfuel image sys_table s).trace[i + 3]? =
            some (.allocate_pool EfiLoaderData ((R + t.sizeof_desc) % 2 ^ t.bits) err b1) ∧
            (err = EFI_SUCCESS → ∃ S1 R1 k1 ds1 dv1,
              (efi_main t fw fuel pfuel image sys_table s).trace[i + 4]? =
                some (.get_memory_map ((R + t.sizeof_desc) % 2 ^ t.bits) b1 S1 R1 k1 ds1 dv1)))) ∧
      ((efi_main t fw fuel pfuel image sys_table s).outcome ≠ .out_of_fuel →
        ∃ err b1, (efi_main t fw fuel pfuel image sys_table s).trace[i + 3]? =
          some (.allocate_pool EfiLoaderData ((R + t.sizeof_desc) % 2 ^ t.bits) err b1))) ∧
    (S ≠ EFI_SUCCESS → S ≠ EFI_BUFFER_TOO_SMALL t →
      (∃ e eb, e ≠ EFI_SUCCESS ∧
        (efi_main t fw fuel pfuel image sys_table s).trace.drop (i + 1) =
          [.Print "Failed to get memory map" [],
           .allocate_pool EfiLoaderData ERROR_STRING_LENGTH e eb,
           .Print "Couldn't allocate pages for error string\n" []] ∧
        (efi_main t fw fuel pfuel image sys_table s).outcome = .returned S) ∨
      (∃ eb ret,
        (efi_main t fw fuel pfuel image sys_table s).trace.drop (i + 1) =
          [.Print "Failed to get memory map" [],
           .allocate_pool EfiLoaderData ERROR_STRING_LENGTH EFI_SUCCESS eb,
           .StatusToString eb S,
           .Print ": %s\n" [.wbuf eb],
           .exit image S R eb ret] ∧
        (efi_main t fw fuel pfuel image sys_table s).outcome = exit_outcome S ret)) ∧
    (S = EFI_SUCCESS → ∀ j e, i < j →
      (efi_main t fw fuel pfuel image sys_table s).trace[j]? = some e →
      ∃ fmt args, e = .Print fmt args) := by
  have hcall := (efi_main_after_call t fw fuel pfuel image sys_table s i sz b S R k ds dv h).2
  refine ⟨?_, ?_, ?_, ?_⟩
  · intro j sz1 b1 S1 R1 k1 ds1 dv1 hij hj
    obtain ⟨m, rfl⟩ : ∃ m, j = i + 1 + m := ⟨j - (i + 1), by omega⟩
    rw [← List.getElem?_drop] at hj
    rcases hcall with ⟨hS, _⟩ | ⟨_, _, s1, hd, _⟩ | ⟨_, s1, ⟨out, hp, hd, _⟩ | ⟨_, hd, _⟩⟩
    · exact hS
    · rw [hd] at hj
      cases m with
      | zero => simp at hj
      | succ m =>
        simp at hj
        exact absurd hj (failed_no_get_memory_map _ _ _ _ _ _ _ _ _ _ _ _ _)
    · rw [hd] at hj
      obtain ⟨fmt, args, he⟩ := print_memory_map_all_print _ _ _ _ _ _ _ _ _ _ hp _
        (List.getElem?_mem hj)
      simp at he
    · rw [hd] at hj
      simp at hj
  · intro hS
    subst hS
    obtain ⟨m, s1, hm, hlt, hd, ho⟩ :=
      efi_main_after_too_small_pass t fw fuel pfuel image sys_table s i sz b R k ds dv h
    have g : ∀ n, (efi_main t fw fuel pfuel image sys_table s).trace[i + 1 + n]? =
        (Event.free_pool b :: .Print "Failed to get map, retry size=%d\n" [.uintn R] ::
          (get_map t fw image pfuel (fuel - (m + 1)) R s1).trace)[n]? := by
      intro n
      rw [← List.getElem?_drop, hd]
    have next : ∀ f, fuel - (m + 1) = f + 1 →
        ∃ err b1, (efi_main t fw fuel pfuel image sys_table s).trace[i + 3]? =
          some (.allocate_pool EfiLoaderData ((R + t.sizeof_desc) % 2 ^ t.bits) err b1) ∧
          (err = EFI_SUCCESS → ∃ S1 R1 k1 ds1 dv1,
            (efi_main t fw fuel pfuel image sys_table s).trace[i + 4]? =
              some (.get_memory_map ((R + t.sizeof_desc) % 2 ^ t.bits) b1 S1 R1 k1 ds1 dv1)) := by
      intro f hf
      rw [hf] at g
      obtain ⟨err, b1, h0, h1⟩ := get_map_first_events t fw image pfuel f R s1
      refine ⟨err, b1, ?_, ?_⟩
      · have := g 2
        simp only [List.getElem?_cons_succ] at this
        rw [show i + 3 = i + 1 + 2 by omega, this, h0]
      · intro herr
        rcases h1 with ⟨hne, _⟩ | ⟨_, S1, R1, k1, ds1, dv1, h1⟩
        · exact absurd herr hne
        · refine ⟨S1, R1, k1, ds1, dv1, ?_⟩
          have := g 3
          simp only [List.getElem?_cons_succ] at this
          rw [show i + 4 = i + 1 + 3 by omega, this, h1]
    refine ⟨by simpa using g 0, by simpa using g 1, ⟨m, hm, hlt, ?_⟩, ?_⟩
    · intro hmore
      exact next (fuel - (m + 1) - 1) (by omega)
    · intro hne
      rcases Nat.eq_zero_or_pos (fuel - (m + 1)) with h0 | hpos
      · rw [ho, h0] at hne
        exact absurd rfl hne
      · obtain ⟨err, b1, h3, _⟩ := next (fuel - (m + 1) - 1) (by omega)
        exact ⟨err, b1, h3⟩
  · intro h1 h2
    rcases hcall with ⟨hS, _⟩ | ⟨_, _, s1, hd, ho⟩ | ⟨hS, _⟩
    · exact absurd hS h2
    · rcases failed_cases fw image S R s1 with ⟨e, eb, he, ht, hout⟩ | ⟨eb, ret, ht, hout⟩
      · exact Or.inl ⟨e, eb, he, by rw [hd, ht], by rw [ho, hout]⟩
      · exact Or.inr ⟨eb, ret, by rw [hd, ht], by rw [ho, hout]⟩
    · exact absurd hS h1
  · intro hS j e hij hj
    obtain ⟨m, rfl⟩ : ∃ m, j = i + 1 + m := ⟨j - (i + 1), by omega⟩
    rw [← List.getElem?_drop] at hj
    rcases hcall with ⟨h1, _⟩ | ⟨h1, _⟩ | ⟨_, s1, ⟨out, hp, hd, _⟩ | ⟨_, hd, _⟩⟩
    · exact absurd (hS ▸ h1).symm (too_small_ne_success t)
    · exact absurd hS h1
    · rw [hd] at hj
      exact print_memory_map_all_print _ _ _ _ _ _ _ _ _ _ hp _ (List.getElem?_mem hj)
    · rw [hd] at hj
      simp at hj

/-- Witness for C3: the x86_64 build with two passes allowed.  The first
`get_memory_map` call reports that 2048 bytes are required, and the run goes on
with the `free_pool`, the notice and the allocation and call of a second
attempt; in the run where the first call fails with `EFI_DEVICE_ERROR` the
rest is the failure path with that status. -/
theorem efi_main_retry_iff_too_small_witness :
    ((efi_main x86_64 (scripted x86_64 sample_mem none) 2 3 1 2 retry_script).trace[4]? =
      some (.get_memory_map 1280 4096 (EFI_BUFFER_TOO_SMALL x86_64) 2048 0 48 1)) ∧
    ((∀ j sz1 b1 S1 R1 k1 ds1 dv1, 4 < j →
      (efi_main x86_64 (scripted x86_64 sample_mem none) 2 3 1 2 retry_script).trace[j]? =
        some (.get_memory_map sz1 b1 S1 R1 k1 ds1 dv1) → (EFI_BUFFER_TOO_SMALL x86_64) = EFI_BUFFER_TOO_SMALL x86_64) ∧
    ((EFI_BUFFER_TOO_SMALL x86_64) = EFI_BUFFER_TOO_SMALL x86_64 →
      (efi_main x86_64 (scripted x86_64 sample_mem none) 2 3 1 2 retry_script).trace[4 + 1]? = some (.free_pool 4096) ∧
      (efi_main x86_64 (scripted x86_64 sample_mem none) 2 3 1 2 retry_script).trace[4 + 2]? =
        some (.Print "Failed to get map, retry size=%d\n" [.uintn 2048]) ∧
      (∃ m, 4 = 4 * m + 4 ∧ m < 2 ∧
        (m + 1 < 2 →
          ∃ err b1, (efi_main x86_64 (scripted x86_64 sample_mem none) 2 3 1 2 retry_script).trace[4 + 3]? =
            some (.allocate_pool EfiLoaderData ((2048 + x86_64.sizeof_desc) % 2 ^ x86_64.bits) err b1) ∧
            (err = EFI_SUCCESS → ∃ S1 R1 k1 ds1 dv1,
              (efi_main x86_64 (scripted x86_64 sample_mem none) 2 3 1 2 retry_script).trace[4 + 4]? =
                some (.get_memory_map ((2048 + x86_64.sizeof_desc) % 2 ^ x86_64.bits) b1 S1 R1 k1 ds1 dv1)))) ∧
      ((efi_main x86_64 (scripted x86_64 sample_mem none) 2 3 1 2 retry_script).outcome ≠ .out_of_fuel →
        ∃ err b1, (efi_main x86_64 (scripted x86_64 sample_mem none) 2 3 1 2 retry_script).trace[4 + 3]? =
          some (.allocate_pool EfiLoaderData ((2048 + x86_64.sizeof_desc) % 2 ^ x86_64.bits) err b1))) ∧
    ((EFI_BUFFER_TOO_SMALL x86_64) ≠ EFI_SUCCESS → (EFI_BUFFER_TOO_SMALL x86_64) ≠ EFI_BUFFER_TOO_SMALL x86_64 →
      (∃ e eb, e ≠ EFI_SUCCESS ∧
        (efi_main x86_64 (scripted x86_64 sample_mem none) 2 3 1 2 retry_script).trace.drop (4 + 1) =
          [.Print "Failed to get memory map" [],
           .allocate_pool EfiLoaderData ERROR_STRING_LENGTH e eb,
           .Print "Couldn't allocate pages for error string\n" []] ∧
        (efi_main x86_64 (scripted x86_64 sample_mem none) 2 3 1 2 retry_script).outcome = .returned (EFI_BUFFER_TOO_SMALL x86_64)) ∨
      (∃ eb ret,
        (efi_main x86_64 (scripted x86_64 sample_mem none) 2 3 1 2 retry_script).trace.drop (4 + 1) =
          [.Print "Failed to get memory map" [],
           .allocate_pool EfiLoaderData ERROR_STRING_LENGTH EFI_SUCCESS eb,
           .StatusToString eb (EFI_BUFFER_TOO_SMALL x86_64),
           .Print ": %s\n" [.wbuf eb],
           .exit 1 (EFI_BUFFER_TOO_SMALL x86_64) 2048 eb ret] ∧
        (efi_main x86_64 (scripted x86_64 sample_mem none) 2 3 1 2 retry_script).outcome = exit_outcome (EFI_BUFFER_TOO_SMALL x86_64) ret)) ∧
    ((EFI_BUFFER_TOO_SMALL x86_64) = EFI_SUCCESS → ∀ j e, 4 < j →
      (efi_main x86_64 (scripted x86_64 sample_mem none) 2 3 1 2 retry_script).trace[j]? = some e →
      ∃ fmt args, e = .Print fmt args)) ∧
    ((efi_main x86_64 (scripted x86_64 sample_mem none) 2 3 1 2 retry_script).trace.take 9 =
      [.InitializeLib 1 2, .register_table 2 true, .Print "efilinux loader\n" [],
       .allocate_pool EfiLoaderData 1280 EFI_SUCCESS 4096,
       .get_memory_map 1280 4096 (EFI_BUFFER_TOO_SMALL x86_64) 2048 0 48 1,
       .free_pool 4096,
       .Print "Failed to get map, retry size=%d\n" [.uintn 2048],
       .allocate_pool EfiLoaderData 2088 EFI_SUCCESS 8192,
       .get_memory_map 2088 8192 EFI_SUCCESS 96 7 48 1] ∧
     (efi_main x86_64 (scripted x86_64 sample_mem none) 2 3 1 2 device_error_script).trace.drop 4 =
      [.get_memory_map 1280 4096 (EFIERR x86_64 7) 1280 0 0 0,
       .Print "Failed to get memory map" [],
       .allocate_pool EfiLoaderData ERROR_STRING_LENGTH EFI_SUCCESS 8192,
       .StatusToString 8192 (EFIERR x86_64 7),
       .Print ": %s\n" [.wbuf 8192],
       .exit 1 (EFIERR x86_64 7) 1280 8192 none]) :=
  ⟨by decide,
   efi_main_retry_iff_too_small x86_64 (scripted x86_64 sample_mem none) 2 3 1 2
     retry_script 4 1280 4096 (EFI_BUFFER_TOO_SMALL x86_64) 2048 0 48 1 (by decide),
   by decide⟩

/-- C10, as stated, fails: in the run where the first `get_memory_map` call
reports `EFI_BUFFER_TOO_SMALL` with required size 2048, the routine prints
"Failed to get map, retry size=%d" with 2048 for that attempt. -/
theorem efi_main_too_small_counterexample :
    (efi_main x86_64 (scripted x86_64 sample_mem none) 2 3 1 2 retry_script).trace[4]? =
        some (.get_memory_map 1280 4096 (EFI_BUFFER_TOO_SMALL x86_64) 2048 0 48 1) ∧
      (efi_main x86_64 (scripted x86_64 sample_mem none) 2 3 1 2 retry_script).trace[6]? =
        some (.Print "Failed to get map, retry size=%d\n" [.uintn 2048]) := by
  decide

/-- C10, amended: in every run of `efi_main`, a `get_memory_map` call returning
`EFI_BUFFER_TOO_SMALL` is followed by the `free_pool` of its buffer and exactly
one diagnostic line, the retry notice "Failed to get map, retry size=%d" with
the size written back; after that the run is the code from `get_map:` entered
afresh with that size, so the failure path is not entered for this response and
the way the run ends is the way that fresh attempt ends, which does not depend
on this status. -/
theorem efi_main_too_small_not_returned {σ : Type} (t : Target) (fw : Firmware σ)
    (fuel pfuel image sys_table : Nat) (s : σ) (i sz b : Nat) (R k ds dv : Nat)
    (h : (efi_main t fw fuel pfuel image sys_table s).trace[i]? =
      some (.get_memory_map sz b (EFI_BUFFER_TOO_SMALL t) R k ds dv)) :
    ∃ fuel1 s1, fuel1 < fuel ∧
      (efi_main t fw fuel pfuel image sys_table s).trace.drop (i + 1) =
        .free_pool b :: .Print "Failed to get map, retry size=%d\n" [.uintn R] ::
          (get_map t fw image pfuel fuel1 R s1).trace ∧
      (efi_main t fw fuel pfuel image sys_table s).outcome =
        (get_map t fw image pfuel fuel1 R s1).outcome ∧
      (∀ e, (get_map t fw image pfuel fuel1 R s1).trace[0]? = some e →
        ∃ err b1, e = .allocate_pool EfiLoaderData ((R + t.sizeof_desc) % 2 ^ t.bits) err b1) := by
  obtain ⟨f1, s1, hlt, hd, ho⟩ :=
    efi_main_after_too_small t fw fuel pfuel image sys_table s i sz b R k ds dv h
  refine ⟨f1, s1, hlt, hd, ho, ?_⟩
  intro e he
  cases f1 with
  | zero => simp [get_map] at he
  | succ f =>
    obtain ⟨err, b1, h0, _⟩ := get_map_first_events t fw image pfuel f R s1
    rw [h0] at he
    exact ⟨err, b1, (Option.some.inj he).symm⟩

/-- Witness for C10 amended: the x86_64 build, first `get_memory_map` call
reporting that 2048 bytes are required. -/
theorem efi_main_too_small_not_returned_witness :
    ((efi_main x86_64 (scripted x86_64 sample_mem none) 2 3 1 2 retry_script).trace[4]? =
      some (.get_memory_map 1280 4096 (EFI_BUFFER_TOO_SMALL x86_64) 2048 0 48 1)) ∧
    (∃ fuel1 s1, fuel1 < 2 ∧
      (efi_main x86_64 (scripted x86_64 sample_mem none) 2 3 1 2 retry_script).trace.drop (4 + 1) =
        .free_pool 4096 :: .Print "Failed to get map, retry size=%d\n" [.uintn 2048] ::
          (get_map x86_64 (scripted x86_64 sample_mem none) 1 3 fuel1 2048 s1).trace ∧
      (efi_main x86_64 (scripted x86_64 sample_mem none) 2 3 1 2 retry_script).outcome =
        (get_map x86_64 (scripted x86_64 sample_mem none) 1 3 fuel1 2048 s1).outcome ∧
      (∀ e, (get_map x86_64 (scripted x86_64 sample_mem none) 1 3 fuel1 2048 s1).trace[0]? = some e →
        ∃ err b1, e = .allocate_pool EfiLoaderData ((2048 + x86_64.sizeof_desc) % 2 ^ x86_64.bits) err b1)) ∧
    ((efi_main x86_64 (scripted x86_64 sample_mem none) 2 3 1 2 retry_script).outcome = .returned EFI_SUCCESS) :=
  ⟨by decide,
   efi_main_too_small_not_returned x86_64 (scripted x86_64 sample_mem none) 2 3 1 2
     retry_script 4 1280 4096 2048 0 48 1 (by decide),
   by decide⟩

/-- C4, as stated, fails: on a firmware whose `exit` returns
`EFI_INVALID_PARAMETER` to the image, when the first map-buffer allocation
fails with `EFI_OUT_OF_RESOURCES` and the error-string allocation succeeds,
`efi_main` returns `EFI_INVALID_PARAMETER`, the value of the `exit` call, and
not `EFI_OUT_OF_RESOURCES`. -/
theorem efi_main_first_alloc_fails_counterexample :
    (efi_main x86_64 (scripted x86_64 sample_mem (some (EFI_INVALID_PARAMETER x86_64)))
        1 3 1 2 no_pool_script).trace =
      [.InitializeLib 1 2, .register_table 2 true, .Print "efilinux loader\n" [],
       .allocate_pool EfiLoaderData 1280 (EFI_OUT_OF_RESOURCES x86_64) 0,
       .Print "Failed to allocate pool for memory map" [],
       .allocate_pool EfiLoaderData ERROR_STRING_LENGTH EFI_SUCCESS 8192,
       .StatusToString 8192 (EFI_OUT_OF_RESOURCES x86_64),
       .Print ": %s\n" [.wbuf 8192],
       .exit 1 (EFI_OUT_OF_RESOURCES x86_64) 1280 8192 (some (EFI_INVALID_PARAMETER x86_64))] ∧
    (efi_main x86_64 (scripted x86_64 sample_mem (some (EFI_INVALID_PARAMETER x86_64)))
        1 3 1 2 no_pool_script).outcome = .returned (EFI_INVALID_PARAMETER x86_64) ∧
    (efi_main x86_64 (scripted x86_64 sample_mem (some (EFI_INVALID_PARAMETER x86_64)))
        1 3 1 2 no_pool_script).outcome ≠ .returned (EFI_OUT_OF_RESOURCES x86_64) := by
  decide

/-- C4, amended: for every non-success status `X` with which the very first
map-buffer `allocate_pool` fails, when the error-string allocation succeeds,
`efi_main` prints "Failed to allocate pool for memory map", converts `X` with
`StatusToString` into the error buffer, prints that buffer, and calls `exit`
with `X` unchanged (and `size` and the error buffer); `efi_main` returns the
value of that `exit` call, so the status reaching the caller is `X` when `exit`
does not return to the image or returns the status it was given. -/
theorem efi_main_first_alloc_fails {σ : Type} (t : Target) (fw : Firmware σ)
    (fuel pfuel image sys_table : Nat) (s s3 s4 s5 : σ) (X : EFI_STATUS) (mb eb : Nat)
    (ret : Option EFI_STATUS)
    (hreg : (fw.register_table (fw.InitializeLib s image sys_table) sys_table).1 = true)
    (hX : X ≠ EFI_SUCCESS)
    (ha : fw.allocate_pool (fw.register_table (fw.InitializeLib s image sys_table) sys_table).2
      EfiLoaderData ((t.sizeof_desc * 31 % 2 ^ t.bits + t.sizeof_desc) % 2 ^ t.bits) = (X, mb, s3))
    (he : fw.allocate_pool s3 EfiLoaderData ERROR_STRING_LENGTH = (EFI_SUCCESS, eb, s4))
    (hx : fw.exit (fw.StatusToString s4 eb X) image X
      ((t.sizeof_desc * 31 % 2 ^ t.bits + t.sizeof_desc) % 2 ^ t.bits) eb = (ret, s5)) :
    efi_main t fw (fuel + 1) pfuel image sys_table s =
      ⟨exit_outcome X ret,
       [.InitializeLib image sys_table, .register_table sys_table true,
        .Print "efilinux loader\n" [],
        .allocate_pool EfiLoaderData
          ((t.sizeof_desc * 31 % 2 ^ t.bits + t.sizeof_desc) % 2 ^ t.bits) X mb,
        .Print "Failed to allocate pool for memory map" [],
        .allocate_pool EfiLoaderData ERROR_STRING_LENGTH EFI_SUCCESS eb,
        .StatusToString eb X,
        .Print ": %s\n" [.wbuf eb],
        .exit image X ((t.sizeof_desc * 31 % 2 ^ t.bits + t.sizeof_desc) % 2 ^ t.bits) eb ret],
       s5⟩ ∧
    ((ret = none ∨ ret = some X) →
      (efi_main t fw (fuel + 1) pfuel image sys_table s).outcome.status = some X) ∧
    (∀ v, ret = some v →
      (efi_main t fw (fuel + 1) pfuel image sys_table s).outcome = .returned v) := by
  have hrun : efi_main t fw (fuel + 1) pfuel image sys_table s =
      ⟨exit_outcome X ret,
       [.InitializeLib image sys_table, .register_table sys_table true,
        .Print "efilinux loader\n" [],
        .allocate_pool EfiLoaderData
          ((t.sizeof_desc * 31 % 2 ^ t.bits + t.sizeof_desc) % 2 ^ t.bits) X mb,
        .Print "Failed to allocate pool for memory map" [],
        .allocate_pool EfiLoaderData ERROR_STRING_LENGTH EFI_SUCCESS eb,
        .StatusToString eb X,
        .Print ": %s\n" [.wbuf eb],
        .exit image X ((t.sizeof_desc * 31 % 2 ^ t.bits + t.sizeof_desc) % 2 ^ t.bits) eb ret],
       s5⟩ := by
    rw [efi_main_register_ok t fw (fuel + 1) pfuel image sys_table s hreg,
      get_map_alloc_fail t fw image pfuel fuel _ _ _ ha hX,
      failed_alloc_ok fw image X _ s3 _ _ he rfl hx]
    rfl
  refine ⟨hrun, ?_, ?_⟩
  · rintro (h | h) <;> rw [hrun, h] <;> rfl
  · intro v h
    rw [hrun, h]
    rfl

/-- Witness for C4 amended: the x86_64 build, a firmware whose `exit` does not
return, first allocation failing with `EFI_OUT_OF_RESOURCES`. -/
theorem efi_main_first_alloc_fails_witness :
    (efi_main x86_64 (scripted x86_64 sample_mem none) 1 3 1 2 no_pool_script).trace =
      [.InitializeLib 1 2, .register_table 2 true, .Print "efilinux loader\n" [],
       .allocate_pool EfiLoaderData 1280 (EFI_OUT_OF_RESOURCES x86_64) 0,
       .Print "Failed to allocate pool for memory map" [],
       .allocate_pool EfiLoaderData ERROR_STRING_LENGTH EFI_SUCCESS 8192,
       .StatusToString 8192 (EFI_OUT_OF_RESOURCES x86_64),
       .Print ": %s\n" [.wbuf 8192],
       .exit 1 (EFI_OUT_OF_RESOURCES x86_64) 1280 8192 none] ∧
    (efi_main x86_64 (scripted x86_64 sample_mem none) 1 3 1 2
      no_pool_script).outcome.status = some (EFI_OUT_OF_RESOURCES x86_64) :=
  ⟨congrArg Run.trace
    (efi_main_first_alloc_fails x86_64 (scripted x86_64 sample_mem none) 0 3 1 2
      no_pool_script ⟨[(EFI_SUCCESS, 8192)], []⟩ ⟨[], []⟩ ⟨[], []⟩ (EFI_OUT_OF_RESOURCES x86_64)
      0 8192 none rfl (by decide) rfl rfl rfl).1,
   (efi_main_first_alloc_fails x86_64 (scripted x86_64 sample_mem none) 0 3 1 2
      no_pool_script ⟨[(EFI_SUCCESS, 8192)], []⟩ ⟨[], []⟩ ⟨[], []⟩ (EFI_OUT_OF_RESOURCES x86_64)
      0 8192 none rfl (by decide) rfl rfl rfl).2.1 (Or.inl rfl)⟩

/-- The run with exactly one retry: what `efi_main` does when the first
`get_memory_map` call reports `EFI_BUFFER_TOO_SMALL`, the second succeeds and
both allocations succeed, according to whether `print_memory_map` returns
within its bound on passes. -/
theorem efi_main_one_retry_run {σ : Type} (t : Target) (fw : Firmware σ)
    (fuel pfuel image sys_table : Nat) (s s3 s4 s5 s6 s7 : σ)
    (b1 b2 R k1 ds1 dv1 size2 k2 ds2 dv2 : Nat) (fs : EFI_STATUS)
    (hreg : (fw.register_table (fw.InitializeLib s image sys_table) sys_table).1 = true)
    (ha1 : fw.allocate_pool (fw.register_table (fw.InitializeLib s image sys_table) sys_table).2
      EfiLoaderData ((t.sizeof_desc * 31 % 2 ^ t.bits + t.sizeof_desc) % 2 ^ t.bits)
        = (EFI_SUCCESS, b1, s3))
    (hg1 : fw.get_memory_map s3
      ((t.sizeof_desc * 31 % 2 ^ t.bits + t.sizeof_desc) % 2 ^ t.bits) b1
        = ⟨EFI_BUFFER_TOO_SMALL t, R, k1, ds1, dv1, s4⟩)
    (hf : fw.free_pool s4 b1 = (fs, s5))
    (ha2 : fw.allocate_pool s5 EfiLoaderData ((R + t.sizeof_desc) % 2 ^ t.bits)
        = (EFI_SUCCESS, b2, s6))
    (hg2 : fw.get_memory_map s6 ((R + t.sizeof_desc) % 2 ^ t.bits) b2
        = ⟨EFI_SUCCESS, size2, k2, ds2, dv2, s7⟩) :
    (∀ out,
      print_memory_map t fw.memory_type_to_str (fw.mem s7) b2 size2 k2 ds2 dv2 pfuel = some out →
      efi_main t fw (fuel + 2) pfuel image sys_table s =
        ⟨.returned EFI_SUCCESS,
         [.InitializeLib image sys_table, .register_table sys_table true,
          .Print "efilinux loader\n" [],
          .allocate_pool EfiLoaderData
            ((t.sizeof_desc * 31 % 2 ^ t.bits + t.sizeof_desc) % 2 ^ t.bits) EFI_SUCCESS b1,
          .get_memory_map ((t.sizeof_desc * 31 % 2 ^ t.bits + t.sizeof_desc) % 2 ^ t.bits) b1
            (EFI_BUFFER_TOO_SMALL t) R k1 ds1 dv1,
          .free_pool b1,
          .Print "Failed to get map, retry size=%d\n" [.uintn R],
          .allocate_pool EfiLoaderData ((R + t.sizeof_desc) % 2 ^ t.bits) EFI_SUCCESS b2,
          .get_memory_map ((R + t.sizeof_desc) % 2 ^ t.bits) b2 EFI_SUCCESS size2 k2 ds2 dv2]
          ++ out,
         s7⟩) ∧
    (print_memory_map t fw.memory_type_to_str (fw.mem s7) b2 size2 k2 ds2 dv2 pfuel = none →
      efi_main t fw (fuel + 2) pfuel image sys_table s =
        ⟨.out_of_fuel,
         [.InitializeLib image sys_table, .register_table sys_table true,
          .Print "efilinux loader\n" [],
          .allocate_pool EfiLoaderData
            ((t.sizeof_desc * 31 % 2 ^ t.bits + t.sizeof_desc) % 2 ^ t.bits) EFI_SUCCESS b1,
          .get_memory_map ((t.sizeof_desc * 31 % 2 ^ t.bits + t.sizeof_desc) % 2 ^ t.bits) b1
            (EFI_BUFFER_TOO_SMALL t) R k1 ds1 dv1,
          .free_pool b1,
          .Print "Failed to get map, retry size=%d\n" [.uintn R],
          .allocate_pool EfiLoaderData ((R + t.sizeof_desc) % 2 ^ t.bits) EFI_SUCCESS b2,
          .get_memory_map ((R + t.sizeof_desc) % 2 ^ t.bits) b2 EFI_SUCCESS size2 k2 ds2 dv2],
         s7⟩) := by
  refine ⟨?_, ?_⟩
  · intro out hp
    rw [efi_main_register_ok t fw (fuel + 2) pfuel image sys_table s hreg,
      get_map_too_small t fw image pfuel (fuel + 1) _ _ _ _ ha1 rfl hg1 rfl]
    simp only [hf]
    rw [get_map_success t fw image pfuel fuel _ _ _ _ _ ha2 rfl hg2 rfl hp]
    rfl
  · intro hp
    rw [efi_main_register_ok t fw (fuel + 2) pfuel image sys_table s hreg,
      get_map_too_small t fw image pfuel (fuel + 1) _ _ _ _ ha1 rfl hg1 rfl]
    simp only [hf]
    rw [get_map_success_none t fw image pfuel fuel _ _ _ _ ha2 rfl hg2 rfl hp]
    rfl

/-- C9, as stated, fails.  On the x86_64 build, when the first `get_memory_map`
call reports `EFI_BUFFER_TOO_SMALL` with `R = 2048`, the second call, made with
a buffer of 2088 bytes, returns `EFI_SUCCESS`, and both allocations succeed,
`efi_main` does not return if the second call wrote back a 96-byte map with
descriptor size 0 (the cursor of `print_memory_map` never moves), nor if it
wrote back a map of `2 ^ 63 + 1` bytes with descriptor size `2 ^ 63` (the
cursor wraps back to the buffer): whatever the bounds on passes, the run ends
by using them up. -/
theorem efi_main_one_retry_counterexample :
    ((efi_main x86_64 (scripted x86_64 sample_mem none) 2 3 1 2 zero_stride_script).trace =
      [.InitializeLib 1 2, .register_table 2 true, .Print "efilinux loader\n" [],
       .allocate_pool EfiLoaderData 1280 EFI_SUCCESS 4096,
       .get_memory_map 1280 4096 (EFI_BUFFER_TOO_SMALL x86_64) 2048 0 48 1,
       .free_pool 4096,
       .Print "Failed to get map, retry size=%d\n" [.uintn 2048],
       .allocate_pool EfiLoaderData 2088 EFI_SUCCESS 8192,
       .get_memory_map 2088 8192 EFI_SUCCESS 96 7 0 1] ∧
     2048 ≤ 2088 ∧
     ∀ fuel pfuel, (efi_main x86_64 (scripted x86_64 sample_mem none) fuel pfuel 1 2
       zero_stride_script).outcome = .out_of_fuel) ∧
    ((efi_main x86_64 (scripted x86_64 sample_mem none) 2 3 1 2 huge_stride_script).trace =
      [.InitializeLib 1 2, .register_table 2 true, .Print "efilinux loader\n" [],
       .allocate_pool EfiLoaderData 1280 EFI_SUCCESS 4096,
       .get_memory_map 1280 4096 (EFI_BUFFER_TOO_SMALL x86_64) 2048 0 48 1,
       .free_pool 4096,
       .Print "Failed to get map, retry size=%d\n" [.uintn 2048],
       .allocate_pool EfiLoaderData 2088 EFI_SUCCESS 8192,
       .get_memory_map 2088 8192 EFI_SUCCESS 9223372036854775809 7 9223372036854775808 1] ∧
     ∀ fuel pfuel, (efi_main x86_64 (scripted x86_64 sample_mem none) fuel pfuel 1 2
       huge_stride_script).outcome = .out_of_fuel) := by
  have stuck0 : ∀ pfuel, print_memory_map x86_64 sample_type_to_str sample_mem 8192 96 7 0 1
      pfuel = none := by
    intro pfuel
    unfold print_memory_map
    rw [print_loop_never x86_64 sample_type_to_str sample_mem 8192 96 0 (fun d => d = 8192)
      (by intro d hd; subst hd; decide) pfuel 8192 0 rfl]
    rfl
  have stuck1 : ∀ pfuel, print_memory_map x86_64 sample_type_to_str sample_mem 8192
      9223372036854775809 7 9223372036854775808 1 pfuel = none := by
    intro pfuel
    unfold print_memory_map
    rw [print_loop_never x86_64 sample_type_to_str sample_mem 8192 9223372036854775809
      9223372036854775808 (fun d => d = 8192 ∨ d = 9223372036854784000)
      (by intro d hd; rcases hd with hd | hd <;> subst hd <;> decide) pfuel 8192 0 (Or.inl rfl)]
    rfl
  refine ⟨⟨by decide, by decide, ?_⟩, ⟨by decide, ?_⟩⟩
  · intro fuel pfuel
    match fuel with
    | 0 => rfl
    | 1 => rfl
    | n + 2 =>
      rw [(efi_main_one_retry_run x86_64 (scripted x86_64 sample_mem none) n pfuel 1 2 zero_stride_script
        ⟨[(EFI_SUCCESS, 8192)], zero_stride_script.maps⟩
        ⟨[(EFI_SUCCESS, 8192)], [(EFI_SUCCESS, 96, 7, 0, 1)]⟩
        ⟨[(EFI_SUCCESS, 8192)], [(EFI_SUCCESS, 96, 7, 0, 1)]⟩
        ⟨[], [(EFI_SUCCESS, 96, 7, 0, 1)]⟩ ⟨[], []⟩
        4096 8192 2048 0 48 1 96 7 0 1 EFI_SUCCESS rfl rfl rfl rfl rfl rfl).2 (stuck0 pfuel)]
  · intro fuel pfuel
    match fuel with
    | 0 => rfl
    | 1 => rfl
    | n + 2 =>
      rw [(efi_main_one_retry_run x86_64 (scripted x86_64 sample_mem none) n pfuel 1 2 huge_stride_script
        ⟨[(EFI_SUCCESS, 8192)], huge_stride_script.maps⟩
        ⟨[(EFI_SUCCESS, 8192)], [(EFI_SUCCESS, 9223372036854775809, 7, 9223372036854775808, 1)]⟩
        ⟨[(EFI_SUCCESS, 8192)], [(EFI_SUCCESS, 9223372036854775809, 7, 9223372036854775808, 1)]⟩
        ⟨[], [(EFI_SUCCESS, 9223372036854775809, 7, 9223372036854775808, 1)]⟩ ⟨[], []⟩
        4096 8192 2048 0 48 1 9223372036854775809 7 9223372036854775808 1 EFI_SUCCESS
        rfl rfl rfl rfl rfl rfl).2 (stuck1 pfuel)]

/-- C9, amended: if the first `get_memory_map` call returns
`EFI_BUFFER_TOO_SMALL` writing back the required size `R`, the second call
returns `EFI_SUCCESS`, and both allocations succeed, then `efi_main` makes
exactly one retry: the run is the first allocation, the first `get_memory_map`
call, the `free_pool` of the first buffer, the retry notice, the second
allocation, the second `get_memory_map` call, and then the one call of
`print_memory_map`, made on the second buffer with the size, key, descriptor
size and version written back by the second call.  When the map written back
is empty, or its descriptor size is positive and the cursor of
`print_memory_map` does not wrap around the address space, `print_memory_map`
returns and `efi_main` returns `EFI_SUCCESS`.  The second request is for `R`
plus one descriptor in `UINTN` arithmetic, which is `R +
sizeof(EFI_MEMORY_DESCRIPTOR)` when the second buffer has at least `R` bytes;
it does not depend on the initial estimate. -/
theorem efi_main_one_retry {σ : Type} (t : Target) (fw : Firmware σ)
    (fuel pfuel image sys_table : Nat) (s s3 s4 s5 s6 s7 : σ)
    (b1 b2 R k1 ds1 dv1 size2 k2 ds2 dv2 : Nat) (fs : EFI_STATUS)
    (hreg : (fw.register_table (fw.InitializeLib s image sys_table) sys_table).1 = true)
    (ha1 : fw.allocate_pool (fw.register_table (fw.InitializeLib s image sys_table) sys_table).2
      EfiLoaderData ((t.sizeof_desc * 31 % 2 ^ t.bits + t.sizeof_desc) % 2 ^ t.bits)
        = (EFI_SUCCESS, b1, s3))
    (hg1 : fw.get_memory_map s3
      ((t.sizeof_desc * 31 % 2 ^ t.bits + t.sizeof_desc) % 2 ^ t.bits) b1
        = ⟨EFI_BUFFER_TOO_SMALL t, R, k1, ds1, dv1, s4⟩)
    (hf : fw.free_pool s4 b1 = (fs, s5))
    (ha2 : fw.allocate_pool s5 EfiLoaderData ((R + t.sizeof_desc) % 2 ^ t.bits)
        = (EFI_SUCCESS, b2, s6))
    (hg2 : fw.get_memory_map s6 ((R + t.sizeof_desc) % 2 ^ t.bits) b2
        = ⟨EFI_SUCCESS, size2, k2, ds2, dv2, s7⟩) :
    (∀ out,
      print_memory_map t fw.memory_type_to_str (fw.mem s7) b2 size2 k2 ds2 dv2 pfuel = some out →
      efi_main t fw (fuel + 2) pfuel image sys_table s =
        ⟨.returned EFI_SUCCESS,
         [.InitializeLib image sys_table, .register_table sys_table true,
          .Print "efilinux loader\n" [],
          .allocate_pool EfiLoaderData
            ((t.sizeof_desc * 31 % 2 ^ t.bits + t.sizeof_desc) % 2 ^ t.bits) EFI_SUCCESS b1,
          .get_memory_map ((t.sizeof_desc * 31 % 2 ^ t.bits + t.sizeof_desc) % 2 ^ t.bits) b1
            (EFI_BUFFER_TOO_SMALL t) R k1 ds1 dv1,
          .free_pool b1,
          .Print "Failed to get map, retry size=%d\n" [.uintn R],
          .allocate_pool EfiLoaderData ((R + t.sizeof_desc) % 2 ^ t.bits) EFI_SUCCESS b2,
          .get_memory_map ((R + t.sizeof_desc) % 2 ^ t.bits) b2 EFI_SUCCESS size2 k2 ds2 dv2]
          ++ out,
         s7⟩) ∧
    (print_memory_map t fw.memory_type_to_str (fw.mem s7) b2 size2 k2 ds2 dv2 pfuel = none →
      efi_main t fw (fuel + 2) pfuel image sys_table s =
        ⟨.out_of_fuel,
         [.InitializeLib image sys_table, .register_table sys_table true,
          .Print "efilinux loader\n" [],
          .allocate_pool EfiLoaderData
            ((t.sizeof_desc * 31 % 2 ^ t.bits + t.sizeof_desc) % 2 ^ t.bits) EFI_SUCCESS b1,
          .get_memory_map ((t.sizeof_desc * 31 % 2 ^ t.bits + t.sizeof_desc) % 2 ^ t.bits) b1
            (EFI_BUFFER_TOO_SMALL t) R k1 ds1 dv1,
          .free_pool b1,
          .Print "Failed to get map, retry size=%d\n" [.uintn R],
          .allocate_pool EfiLoaderData ((R + t.sizeof_desc) % 2 ^ t.bits) EFI_SUCCESS b2,
          .get_memory_map ((R + t.sizeof_desc) % 2 ^ t.bits) b2 EFI_SUCCESS size2 k2 ds2 dv2],
         s7⟩) ∧
    ((size2 = 0 ∨ (0 < ds2 ∧ b2 + ceil_div size2 ds2 * ds2 < 2 ^ t.bits)) →
      ceil_div size2 ds2 < pfuel →
      ∃ out,
        print_memory_map t fw.memory_type_to_str (fw.mem s7) b2 size2 k2 ds2 dv2 pfuel
          = some out ∧
        (∀ e, e ∈ out → ∃ fmt args, e = .Print fmt args) ∧
        efi_main t fw (fuel + 2) pfuel image sys_table s =
          ⟨.returned EFI_SUCCESS,
           [.InitializeLib image sys_table, .register_table sys_table true,
            .Print "efilinux loader\n" [],
            .allocate_pool EfiLoaderData
              ((t.sizeof_desc * 31 % 2 ^ t.bits + t.sizeof_desc) % 2 ^ t.bits) EFI_SUCCESS b1,
            .get_memory_map ((t.sizeof_desc * 31 % 2 ^ t.bits + t.sizeof_desc) % 2 ^ t.bits) b1
              (EFI_BUFFER_TOO_SMALL t) R k1 ds1 dv1,
            .free_pool b1,
            .Print "Failed to get map, retry size=%d\n" [.uintn R],
            .allocate_pool EfiLoaderData ((R + t.sizeof_desc) % 2 ^ t.bits) EFI_SUCCESS b2,
            .get_memory_map ((R + t.sizeof_desc) % 2 ^ t.bits) b2 EFI_SUCCESS size2 k2 ds2 dv2]
            ++ out,
           s7⟩) ∧
    (t.sizeof_desc < 2 ^ t.bits → R ≤ (R + t.sizeof_desc) % 2 ^ t.bits →
      (R + t.sizeof_desc) % 2 ^ t.bits = R + t.sizeof_desc) := by
  have run := efi_main_one_retry_run t fw fuel pfuel image sys_table s s3 s4 s5 s6 s7
    b1 b2 R k1 ds1 dv1 size2 k2 ds2 dv2 fs hreg ha1 hg1 hf ha2 hg2
  refine ⟨run.1, run.2, ?_, ?_⟩
  · intro hds hpf
    have hp := print_memory_map_eq t fw.memory_type_to_str (fw.mem s7) b2 size2 k2 ds2 dv2 pfuel
      hds hpf
    exact ⟨_, hp, print_memory_map_all_print _ _ _ _ _ _ _ _ _ _ hp, run.1 _ hp⟩
  · intro hsz hle
    by_cases hlt : R + t.sizeof_desc < 2 ^ t.bits
    · exact Nat.mod_eq_of_lt hlt
    · exfalso
      have h1 : (R + t.sizeof_desc) % 2 ^ t.bits = R + t.sizeof_desc - 2 ^ t.bits := by
        rw [Nat.mod_eq_sub_mod (by omega)]
        exact Nat.mod_eq_of_lt (by omega)
      omega

/-- Witness for C9 amended: the x86_64 build, required size `R = 2048` (second
request 2088 bytes), then success with a 96-byte map of 48-byte descriptors. -/
theorem efi_main_one_retry_witness :
    ((0 < 48 ∧ 8192 + ceil_div 96 48 * 48 < 2 ^ x86_64.bits) ∧ ceil_div 96 48 < 3) ∧
    efi_main x86_64 (scripted x86_64 sample_mem none) 2 3 1 2 retry_script =
      ⟨.returned EFI_SUCCESS,
       [.InitializeLib 1 2, .register_table 2 true,
        .Print "efilinux loader\n" [],
        .allocate_pool EfiLoaderData 1280 EFI_SUCCESS 4096,
        .get_memory_map 1280 4096 (EFI_BUFFER_TOO_SMALL x86_64) 2048 0 48 1,
        .free_pool 4096,
        .Print "Failed to get map, retry size=%d\n" [.uintn 2048],
        .allocate_pool EfiLoaderData 2088 EFI_SUCCESS 8192,
        .get_memory_map 2088 8192 EFI_SUCCESS 96 7 48 1]
        ++ (print_header 96 48 1 ++
          print_record x86_64 sample_type_to_str 0 sample_desc ++
          print_record x86_64 sample_type_to_str 1 sample_desc),
       ⟨[], []⟩⟩ ∧
    (∃ out,
      print_memory_map x86_64 sample_type_to_str sample_mem 8192 96 7 48 1 3 = some out ∧
      (∀ e, e ∈ out → ∃ fmt args, e = .Print fmt args) ∧
      efi_main x86_64 (scripted x86_64 sample_mem none) 2 3 1 2 retry_script =
        ⟨.returned EFI_SUCCESS,
         [.InitializeLib 1 2, .register_table 2 true,
          .Print "efilinux loader\n" [],
          .allocate_pool EfiLoaderData 1280 EFI_SUCCESS 4096,
          .get_memory_map 1280 4096 (EFI_BUFFER_TOO_SMALL x86_64) 2048 0 48 1,
          .free_pool 4096,
          .Print "Failed to get map, retry size=%d\n" [.uintn 2048],
          .allocate_pool EfiLoaderData 2088 EFI_SUCCESS 8192,
          .get_memory_map 2088 8192 EFI_SUCCESS 96 7 48 1]
          ++ out,
         ⟨[], []⟩⟩) :=
  ⟨by decide,
   (efi_main_one_retry x86_64 (scripted x86_64 sample_mem none) 0 3 1 2 retry_script
    ⟨[(EFI_SUCCESS, 8192)], retry_script.maps⟩
    ⟨[(EFI_SUCCESS, 8192)], [(EFI_SUCCESS, 96, 7, 48, 1)]⟩
    ⟨[(EFI_SUCCESS, 8192)], [(EFI_SUCCESS, 96, 7, 48, 1)]⟩
    ⟨[], [(EFI_SUCCESS, 96, 7, 48, 1)]⟩ ⟨[], []⟩
    4096 8192 2048 0 48 1 96 7 48 1 EFI_SUCCESS rfl rfl rfl rfl rfl rfl).1 _ (by decide),
   (efi_main_one_retry x86_64 (scripted x86_64 sample_mem none) 0 3 1 2 retry_script
    ⟨[(EFI_SUCCESS, 8192)], retry_script.maps⟩
    ⟨[(EFI_SUCCESS, 8192)], [(EFI_SUCCESS, 96, 7, 48, 1)]⟩
    ⟨[(EFI_SUCCESS, 8192)], [(EFI_SUCCESS, 96, 7, 48, 1)]⟩
    ⟨[], [(EFI_SUCCESS, 96, 7, 48, 1)]⟩ ⟨[], []⟩
    4096 8192 2048 0 48 1 96 7 48 1 EFI_SUCCESS rfl rfl rfl rfl rfl rfl).2.2.1
      (Or.inr (by decide)) (by decide)⟩

/-! ## The pool of live buffers -/

theorem live_after_prints (l : List Nat) :
    ∀ out : List Event, (∀ e, e ∈ out → ∃ fmt args, e = .Print fmt args) →
      live_after l out = l := by
  intro out
  induction out with
  | nil => intro _; rfl
  | cons e out ih =>
    intro h
    obtain ⟨fmt, args, rfl⟩ := h e (List.mem_cons_self _ _)
    simp only [live_after]
    exact ih (fun e he => h e (List.mem_cons_of_mem _ he))

/-- In the code from `get_map:` on, started with an empty pool: when a
`get_memory_map` call succeeds, its buffer is the only live buffer at the end of
the run; and right after the `free_pool` that follows a call reporting
`EFI_BUFFER_TOO_SMALL` the pool is empty again. -/
theorem get_map_live {σ : Type} (t : Target) (fw : Firmware σ) (image pfuel : Nat) :
    ∀ (fuel size : Nat) (s : σ) (i sz b : Nat) (S : EFI_STATUS) (R k ds dv : Nat),
      (get_map t fw image pfuel fuel size s).trace[i]? =
        some (.get_memory_map sz b S R k ds dv) →
      (S = EFI_SUCCESS → live_after [] (get_map t fw image pfuel fuel size s).trace = [b]) ∧
      (S = EFI_BUFFER_TOO_SMALL t →
        live_after [] ((get_map t fw image pfuel fuel size s).trace.take (i + 2)) = []) := by
  intro fuel
  induction fuel with
  | zero => intro size s i sz b S R k ds dv h; simp [get_map] at h
  | succ fuel ih =>
    intro size s i sz b S R k ds dv h
    obtain ⟨a, ha⟩ : ∃ a, fw.allocate_pool s EfiLoaderData
      ((size + t.sizeof_desc) % 2 ^ t.bits) = a := ⟨_, rfl⟩
    by_cases ha1 : a.1 = EFI_SUCCESS
    · obtain ⟨r, hr⟩ : ∃ r, fw.get_memory_map a.2.2
        ((size + t.sizeof_desc) % 2 ^ t.bits) a.2.1 = r := ⟨_, rfl⟩
      by_cases hr1 : r.err = EFI_SUCCESS
      · cases hp : print_memory_map t fw.memory_type_to_str (fw.mem r.state) a.2.1 r.size r.key
          r.desc_size r.desc_version pfuel with
        | none =>
          rw [get_map_success_none t fw image pfuel fuel size s a r ha ha1 hr hr1 hp] at h ⊢
          match i, h with
          | 0, h => simp at h
          | 1, h =>
            simp at h
            obtain ⟨rfl, rfl, rfl, rfl, rfl, rfl, rfl⟩ := h
            exact ⟨fun _ => by simp [live_after],
              fun hS => absurd hS.symm (too_small_ne_success t)⟩
          | j + 2, h => simp at h
        | some out =>
          rw [get_map_success t fw image pfuel fuel size s a r out ha ha1 hr hr1 hp] at h ⊢
          match i, h with
          | 0, h => simp at h
          | 1, h =>
            simp at h
            obtain ⟨rfl, rfl, rfl, rfl, rfl, rfl, rfl⟩ := h
            refine ⟨fun _ => ?_, fun hS => absurd hS.symm (too_small_ne_success t)⟩
            simp only [live_after, if_true, List.nil_append]
            exact live_after_prints _ out (print_memory_map_all_print _ _ _ _ _ _ _ _ _ _ hp)
          | j + 2, h =>
            simp at h
            obtain ⟨fmt, args, he⟩ := print_memory_map_all_print _ _ _ _ _ _ _ _ _ _ hp _
              (List.getElem?_mem h)
            simp at he
      · by_cases hr2 : r.err = EFI_BUFFER_TOO_SMALL t
        · rw [get_map_too_small t fw image pfuel fuel size s a r ha ha1 hr hr2] at h ⊢
          simp only [Run.after] at h ⊢
          match i, h with
          | 0, h => simp at h
          | 1, h =>
            simp at h
            obtain ⟨rfl, rfl, rfl, rfl, rfl, rfl, rfl⟩ := h
            exact ⟨fun hS => absurd hS (too_small_ne_success t), fun _ => by simp [live_after]⟩
          | 2, h => simp at h
          | 3, h => simp at h
          | j + 4, h =>
            simp at h
            obtain ⟨h1, h2⟩ := ih _ _ _ _ _ _ _ _ _ _ h
            refine ⟨fun hS => ?_, fun hS => ?_⟩
            · have := h1 hS
              simpa [live_after] using this
            · have := h2 hS
              have e : j + 4 + 2 = (j + 2) + 4 := by omega
              rw [e]
              simpa [live_after] using this
        · rw [get_map_other_error t fw image pfuel fuel size s a r ha ha1 hr hr1 hr2] at h ⊢
          simp only [Run.after] at h ⊢
          match i, h with
          | 0, h => simp at h
          | 1, h =>
            simp at h
            obtain ⟨rfl, rfl, rfl, rfl, rfl, rfl, rfl⟩ := h
            exact ⟨fun hS => absurd hS hr1, fun hS => absurd hS hr2⟩
          | 2, h => simp at h
          | j + 3, h =>
            simp at h
            exact absurd h (failed_no_get_memory_map _ _ _ _ _ _ _ _ _ _ _ _ _)
    · rw [get_map_alloc_fail t fw image pfuel fuel size s a ha ha1] at h ⊢
      simp only [Run.after] at h ⊢
      match i, h with
      | 0, h => simp at h
      | 1, h => simp at h
      | j + 2, h =>
        simp at h
        exact absurd h (failed_no_get_memory_map _ _ _ _ _ _ _ _ _ _ _ _ _)

/-- C8: with the pool modelled as the list of live buffers (empty when
`efi_main` starts), in every run of `efi_main`: a `get_memory_map` call that
reports `EFI_BUFFER_TOO_SMALL` was made on the buffer allocated just before it,
that buffer is passed to `free_pool` in the very next event, before any other
`allocate_pool` call, and the pool is then empty; and when a `get_memory_map`
call succeeds and `efi_main` returns `EFI_SUCCESS`, the rest of the run is the
output of `print_memory_map` on the buffer of that call, and that buffer is the
one and only live buffer at the end. -/
theorem efi_main_live_buffers {σ : Type} (t : Target) (fw : Firmware σ)
    (fuel pfuel image sys_table : Nat) (s : σ) (i sz b : Nat) (S : EFI_STATUS) (R k ds dv : Nat)
    (h : (efi_main t fw fuel pfuel image sys_table s).trace[i]? =
      some (.get_memory_map sz b S R k ds dv)) :
    (S = EFI_BUFFER_TOO_SMALL t →
      (∃ j, i = j + 1 ∧ (efi_main t fw fuel pfuel image sys_table s).trace[j]? =
        some (.allocate_pool EfiLoaderData sz EFI_SUCCESS b)) ∧
      (efi_main t fw fuel pfuel image sys_table s).trace[i + 1]? = some (.free_pool b) ∧
      live ((efi_main t fw fuel pfuel image sys_table s).trace.take (i + 2)) = []) ∧
    (S = EFI_SUCCESS →
      (efi_main t fw fuel pfuel image sys_table s).outcome = .returned EFI_SUCCESS →
      live (efi_main t fw fuel pfuel image sys_table s).trace = [b] ∧
      ∃ s1 out,
        print_memory_map t fw.memory_type_to_str (fw.mem s1) b R k ds dv pfuel = some out ∧
        (efi_main t fw fuel pfuel image sys_table s).trace.drop (i + 1) = out) := by
  have hcall := efi_main_after_call t fw fuel pfuel image sys_table s i sz b S R k ds dv h
  have hlive : (S = EFI_SUCCESS →
        live (efi_main t fw fuel pfuel image sys_table s).trace = [b]) ∧
      (S = EFI_BUFFER_TOO_SMALL t →
        live ((efi_main t fw fuel pfuel image sys_table s).trace.take (i + 2)) = []) := by
    by_cases hreg : (fw.register_table (fw.InitializeLib s image sys_table) sys_table).1 = true
    · rw [efi_main_register_ok t fw fuel pfuel image sys_table s hreg] at h ⊢
      simp only [Run.after] at h ⊢
      match i, h with
      | 0, h => simp at h
      | 1, h => simp at h
      | 2, h => simp at h
      | j + 3, h =>
        simp at h
        obtain ⟨h1, h2⟩ := get_map_live t fw image pfuel _ _ _ _ _ _ _ _ _ _ _ h
        refine ⟨fun hS => ?_, fun hS => ?_⟩
        · have := h1 hS
          simpa [live, live_after] using this
        · have := h2 hS
          have e : j + 3 + 2 = (j + 2) + 3 := by omega
          rw [e]
          simpa [live, live_after] using this
    · rw [efi_main_register_fail t fw fuel pfuel image sys_table s hreg] at h
      match i, h with
      | 0, h => simp at h
      | 1, h => simp at h
      | j + 2, h => simp at h
  refine ⟨fun hS => ⟨hcall.1, ?_, hlive.2 hS⟩, fun hS hout => ⟨hlive.1 hS, ?_⟩⟩
  · subst hS
    obtain ⟨f1, s1, _, hd, _⟩ :=
      efi_main_after_too_small t fw fuel pfuel image sys_table s i sz b R k ds dv h
    have := List.getElem?_drop (efi_main t fw fuel pfuel image sys_table s).trace (i + 1) 0
    rw [hd] at this
    simpa using this.symm
  · rcases hcall.2 with ⟨h1, _⟩ | ⟨h1, _⟩ | ⟨_, s1, ⟨out, hp, hd, _⟩ | ⟨_, _, ho⟩⟩
    · exact absurd (hS ▸ h1).symm (too_small_ne_success t)
    · exact absurd hS h1
    · exact ⟨s1, out, hp, hd⟩
    · rw [ho] at hout
      exact absurd hout (by simp)

/-- Witness for C8: the x86_64 build, one retry and then success; the call
looked at is the successful one. -/
theorem efi_main_live_buffers_witness :
    ((efi_main x86_64 (scripted x86_64 sample_mem none) 2 3 1 2 retry_script).trace[8]? =
      some (.get_memory_map 2088 8192 EFI_SUCCESS 96 7 48 1)) ∧
    ((EFI_SUCCESS = EFI_BUFFER_TOO_SMALL x86_64 →
      (∃ j, 8 = j + 1 ∧ (efi_main x86_64 (scripted x86_64 sample_mem none) 2 3 1 2 retry_script).trace[j]? =
        some (.allocate_pool EfiLoaderData 2088 EFI_SUCCESS 8192)) ∧
      (efi_main x86_64 (scripted x86_64 sample_mem none) 2 3 1 2 retry_script).trace[8 + 1]? = some (.free_pool 8192) ∧
      live ((efi_main x86_64 (scripted x86_64 sample_mem none) 2 3 1 2 retry_script).trace.take (8 + 2)) = []) ∧
    (EFI_SUCCESS = EFI_SUCCESS →
      (efi_main x86_64 (scripted x86_64 sample_mem none) 2 3 1 2 retry_script).outcome = .returned EFI_SUCCESS →
      live (efi_main x86_64 (scripted x86_64 sample_mem none) 2 3 1 2 retry_script).trace = [8192] ∧
      ∃ s1 out,
        print_memory_map x86_64 (scripted x86_64 sample_mem none).memory_type_to_str ((scripted x86_64 sample_mem none).mem s1) 8192 96 7 48 1 3 = some out ∧
        (efi_main x86_64 (scripted x86_64 sample_mem none) 2 3 1 2 retry_script).trace.drop (8 + 1) = out)) ∧
    (live (efi_main x86_64 (scripted x86_64 sample_mem none) 2 3 1 2 retry_script).trace = [8192]) :=
  ⟨by decide,
   efi_main_live_buffers x86_64 (scripted x86_64 sample_mem none) 2 3 1 2
     retry_script 8 2088 8192 EFI_SUCCESS 96 7 48 1 (by decide),
   by decide⟩

end Efilinux
